import Mathlib

/-!
A verification development for a Rust DOOM software renderer.

The Rust code is shallowly embedded: `f32` values are modelled as exact
rationals (`Rat`), machine integers (`i16`, `i32`, `u32`) as `Int`/`Nat` with
explicit saturation/truncation where a cast appears in the source, `Vec`
indexing as `Option`-returning access (`none` models an index panic), and
functions that can panic return `Option`.  Rust module paths are kept in the
definition names where Lean allows it.
-/

namespace DoomRs

/-! ### Constants, from src/game.rs and src/renderer/constants.rs -/

/-- `SCREEN_WIDTH` from src/game.rs (`pub const SCREEN_WIDTH: u32 = 1024`). -/
def SCREEN_WIDTH : Nat := 1024

/-- `SCREEN_HEIGHT` from src/game.rs (`pub const SCREEN_HEIGHT: u32 = 768`). -/
def SCREEN_HEIGHT : Nat := 768

/-- `CLOCK_HZ` from src/game.rs (35 Hz game clock). -/
def CLOCK_HZ : Nat := 35

/-- `PLAYER_EYE_HEIGHT` from src/renderer/constants.rs. -/
def PLAYER_EYE_HEIGHT : Rat := 41

/-- `ASPECT_RATIO_CORRECTION` from src/renderer/constants.rs:
`200.0 / 240.0`. -/
def ASPECT_RATIO_CORRECTION : Rat := 200 / 240

/-- `GAME_SCREEN_WIDTH` from src/renderer/constants.rs:
`SCREEN_WIDTH as f32 / ASPECT_RATIO_CORRECTION`. -/
def GAME_SCREEN_WIDTH : Rat := (SCREEN_WIDTH : Rat) / ASPECT_RATIO_CORRECTION

/-- `GAME_CAMERA_FOCUS_X` from src/renderer/constants.rs:
`GAME_SCREEN_WIDTH / 2.0`. -/
def GAME_CAMERA_FOCUS_X : Rat := GAME_SCREEN_WIDTH / 2

/-- `CAMERA_FOCUS_X` from src/renderer/constants.rs: `SCREEN_WIDTH as f32 / 2.0`. -/
def CAMERA_FOCUS_X : Rat := (SCREEN_WIDTH : Rat) / 2

/-- `CAMERA_FOCUS_Y` from src/renderer/constants.rs: `SCREEN_HEIGHT as f32 / 2.0`. -/
def CAMERA_FOCUS_Y : Rat := (SCREEN_HEIGHT : Rat) / 2

/-! ### Numeric cast helpers

Rust float-to-integer `as` casts truncate toward zero and saturate at the
integer type's bounds. -/

/-- Truncation of a rational toward zero, as Rust float-to-int casts do. -/
def ratTrunc (q : Rat) : Int := if 0 ≤ q then q.floor else -((-q).floor)

/-- Rust `f32 as u32`: truncate toward zero, saturate into `[0, 2^32 - 1]`. -/
def f32AsU32 (q : Rat) : Nat :=
  if q ≤ 0 then 0
  else if (4294967295 : Rat) ≤ q then 4294967295
  else (ratTrunc q).toNat

/-- Rust `f32 as i32`: truncate toward zero, saturate into i32 bounds. -/
def f32AsI32 (q : Rat) : Int :=
  if q ≤ -2147483648 then -2147483648
  else if (2147483647 : Rat) ≤ q then 2147483647
  else ratTrunc q

/-- Rust `i32 as i16`: wrap modulo 2^16 into `[-32768, 32767]`. -/
def i32AsI16 (n : Int) : Int :=
  let m := n % 65536
  if m < 32768 then m else m - 65536

/-! ### src/renderer/pixels.rs -/

/-- An RGB color (the `sdl2` `Color` restricted to the three channels the
renderer writes). Each channel is a byte value. -/
structure Color where
  r : Nat
  g : Nat
  b : Nat
deriving Repr, DecidableEq

/-- Rust `Vec` element assignment `v[i] = x`: panics (modelled as `none`)
when the index is out of bounds. -/
def vecWrite (l : List Nat) (i : Nat) (v : Nat) : Option (List Nat) :=
  if i < l.length then some (l.set i v) else none

/-- `Pixels::new` from src/renderer/pixels.rs: a zero-filled buffer of
`SCREEN_WIDTH * SCREEN_HEIGHT * 3` bytes. -/
def pixelsNew : List Nat := List.replicate (SCREEN_WIDTH * SCREEN_HEIGHT * 3) 0

/-- `Pixels::set` from src/renderer/pixels.rs.  The guard in the source is
`if x >= SCREEN_WIDTH as usize || y > SCREEN_HEIGHT as usize \x7b return; \x7d`
(note `>` on `y`, not `>=`); then the three RGB bytes are written at
row-major offset `3 * (y * SCREEN_WIDTH + x)`.  A buffer index out of bounds
is a Rust panic, modelled as `none`. -/
def pixelsSet (pixels : List Nat) (x y : Nat) (color : Color) : Option (List Nat) :=
  if SCREEN_WIDTH ≤ x ∨ SCREEN_HEIGHT < y then some pixels
  else do
    let p0 ← vecWrite pixels (3 * (y * SCREEN_WIDTH + x) + 0) color.r
    let p1 ← vecWrite p0 (3 * (y * SCREEN_WIDTH + x) + 1) color.g
    vecWrite p1 (3 * (y * SCREEN_WIDTH + x) + 2) color.b

/-! ### src/game.rs: the game clock -/

/-- `AVG_TICKS_MAXSAMPLES` from src/game.rs. -/
def AVG_TICKS_MAXSAMPLES : Nat := 16

/-- `Clock` from src/game.rs.  `timestamp` is seconds since game start (an
`f32`, modelled as a rational); `ticks` is the number of elapsed 35 Hz ticks;
the remaining fields implement the rolling FPS average. -/
structure Clock where
  timestamp : Rat
  ticks : Nat
  index : Nat
  rolling_sum : Rat
  list : List Rat
deriving Repr

/-- `Clock::new` from src/game.rs. -/
def clockNew : Clock :=
  { timestamp := 0
    ticks := 0
    index := 0
    rolling_sum := 0
    list := List.replicate AVG_TICKS_MAXSAMPLES 0 }

/-- `Clock::add_elapsed_interval` from src/game.rs:
`timestamp += interval; ticks = (timestamp * CLOCK_HZ as f32) as u32;`
followed by the rolling-average bookkeeping. -/
def clockAddElapsedInterval (c : Clock) (interval : Rat) : Clock :=
  let timestamp := c.timestamp + interval
  let ticks := f32AsU32 (timestamp * (CLOCK_HZ : Rat))
  let rolling_sum := c.rolling_sum - (c.list.getD c.index 0) + interval
  let list := c.list.set c.index interval
  let index := if c.index + 1 = AVG_TICKS_MAXSAMPLES then 0 else c.index + 1
  { timestamp, ticks, index, rolling_sum, list }

/-- The tick-firing fragment of `Game::evolve` from src/game.rs: after
`add_elapsed_interval`, fire `clock.ticks - last_tick_processed` game ticks
when `last_tick_processed < clock.ticks`, and none otherwise.  Returns the
updated clock, the number of ticks fired, and the new `last_tick_processed`. -/
def gameEvolveTicks (c : Clock) (lastTickProcessed : Nat) (interval : Rat) :
    Clock × Nat × Nat :=
  let c := clockAddElapsedInterval c interval
  if lastTickProcessed < c.ticks then
    (c, c.ticks - lastTickProcessed, c.ticks)
  else
    (c, 0, lastTickProcessed)

/-! ### src/wad.rs -/

/-- `MapLumpName` from src/wad.rs: the relative position of each map lump
after the map marker. -/
inductive MapLumpName where
  | things
  | linedefs
  | sidedefs
  | vertexes
  | segs
  | ssectors
  | nodes
  | sectors
  | reject
  | blockmap
deriving Repr, DecidableEq

/-- The discriminant values of `MapLumpName` (`Things = 1` through
`Blockmap = 10`); this is what `lump_name as usize` yields in
`get_dir_entry_for_map_lump`. -/
def MapLumpName.ordinal : MapLumpName → Nat
  | .things => 1
  | .linedefs => 2
  | .sidedefs => 3
  | .vertexes => 4
  | .segs => 5
  | .ssectors => 6
  | .nodes => 7
  | .sectors => 8
  | .reject => 9
  | .blockmap => 10

/-- `DirEntry` from src/wad.rs. -/
structure DirEntry where
  index : Int
  name : String
  offset : Nat
  size : Nat
deriving Repr, DecidableEq

/-- Rust `str::to_ascii_uppercase`: uppercase the ASCII letters, leave every
other character unchanged.  Lean's `Char.toUpper` performs exactly this
ASCII-only mapping (it is applied to the string's character list
directly). -/
def toAsciiUppercase (s : String) : String := ⟨s.data.map Char.toUpper⟩

/-- `WadFile::get_dir_entry_for_map_lump` from src/wad.rs: scan `dirs_list`
for the first entry whose (stored) name equals the uppercased map name and
return the entry `lump_name as usize` positions further on.  The panic when
the marker is missing, and the index panic when the directory is too short,
are both modelled as `none`. -/
def getDirEntryForMapLump (dirs : List DirEntry) (mapName : String)
    (lumpName : MapLumpName) : Option DirEntry :=
  match dirs.findIdx? (fun d => d.name = toAsciiUppercase mapName) with
  | some i => dirs.get? (i + lumpName.ordinal)
  | none => none

/-! ### Sectors, sidedefs, linedefs (src/map/sectors.rs, src/map/sidedefs.rs,
src/map/linedefs.rs)

A `Sector` behind `Rc<RefCell<...>>` is modelled by value: the light
thinkers below are given the current light level explicitly where they read
it through the shared reference. -/

/-- `Sector` from src/map/sectors.rs (the hash fields are derived data and
carry no information beyond the texture names). -/
structure Sector where
  id : Int
  floor_height : Int
  ceiling_height : Int
  floor_texture : String
  ceiling_texture : String
  light_level : Int
  special_type : Int
  tag_number : Int
deriving Repr, DecidableEq

/-- `Sidedef` from src/map/sidedefs.rs. -/
structure Sidedef where
  id : Int
  x_offset : Rat
  y_offset : Rat
  upper_texture : String
  lower_texture : String
  middle_texture : String
  sector : Sector
deriving Repr, DecidableEq

/-- The linedef flag constants from src/map/linedefs.rs (`Flags`). -/
def Flags.TWOSIDED : Int := 4

/-- `Flags::DONTPEGTOP` from src/map/linedefs.rs. -/
def Flags.DONTPEGTOP : Int := 8

/-- `Flags::DONTPEGBOTTOM` from src/map/linedefs.rs. -/
def Flags.DONTPEGBOTTOM : Int := 16

/-- Rust `flags & Flags::X != 0` on an `i16` bitset, for the power-of-two
flag constants used by the renderer. -/
def flagSet (flags flag : Int) : Bool := flags % (2 * flag) ≥ flag

/-- `Linedef` from src/map/linedefs.rs, restricted to the fields the
renderer and the light thinkers read.  Vertex references are inlined as
coordinates (`Vertex` is defined below for the renderer). -/
structure Linedef where
  id : Int
  flags : Int
  special_type : Int
  sector_tag : Int
  front_sidedef : Option Sidedef
  back_sidedef : Option Sidedef
deriving Repr, DecidableEq

/-! ### src/lights.rs: light thinkers -/

/-- `find_min_surrounding_light` from src/lights.rs: the minimum light level
over the sectors on the other side of every linedef touching the sector,
starting from `max`. -/
def findMinSurroundingLight (linedefs : List Linedef) (sectorId : Int)
    (maxLight : Int) : Int :=
  linedefs.foldl
    (fun lightLevel linedef =>
      let lightLevel :=
        match linedef.front_sidedef with
        | some frontSidedef =>
          if frontSidedef.sector.id = sectorId then
            match linedef.back_sidedef with
            | some backSidedef => min lightLevel backSidedef.sector.light_level
            | none => lightLevel
          else lightLevel
        | none => lightLevel
      match linedef.back_sidedef with
      | some backSidedef =>
        if backSidedef.sector.id = sectorId then
          match linedef.front_sidedef with
          | some frontSidedef => min lightLevel frontSidedef.sector.light_level
          | none => lightLevel
        else lightLevel
      | none => lightLevel)
    maxLight

/-- `STROBE_BRIGHT` from src/lights.rs. -/
def STROBE_BRIGHT : Int := 5

/-- `FAST_DARK` from src/lights.rs. -/
def FAST_DARK : Int := 15

/-- `SLOW_DARK` from src/lights.rs. -/
def SLOW_DARK : Int := 35

/-- The state of a `StrobeFlash` thinker from src/lights.rs, minus the
shared sector reference: the sector's current light level is passed to
`strobeFlashMutate` explicitly. -/
structure StrobeFlash where
  min_light : Int
  max_light : Int
  dark_time : Int
  bright_time : Int
  count : Int
deriving Repr, DecidableEq

/-- `StrobeFlash::new` from src/lights.rs.  `rngDraw` stands for the value
the thread RNG produced for `rng.gen_range(1..9)`; it is only used when
`in_sync` is false. -/
def strobeFlashNew (linedefs : List Linedef) (sector : Sector)
    (darkTime : Int) (inSync : Bool) (rngDraw : Int) : StrobeFlash :=
  let minLight := findMinSurroundingLight linedefs sector.id sector.light_level
  let maxLight := sector.light_level
  let minLight := if minLight = maxLight then 0 else minLight
  { min_light := minLight
    max_light := maxLight
    dark_time := darkTime
    bright_time := STROBE_BRIGHT
    count := if inSync then 1 else rngDraw }

/-- One call of `<StrobeFlash as Thinker>::mutate` from src/lights.rs.
Input: the thinker state and the sector's current light level.  Output: the
new thinker state, the new light level, and whether this call set the light
to `max_light` (the final `else` branch). -/
def strobeFlashMutate (f : StrobeFlash) (light : Int) :
    StrobeFlash × Int × Bool :=
  let count := f.count - 1
  if 0 < count then ({ f with count }, light, false)
  else if light = f.max_light then
    ({ f with count := f.dark_time }, f.min_light, false)
  else
    ({ f with count := f.bright_time }, f.max_light, true)

/-- Iterate `strobeFlashMutate` `n` times, dropping the event bit. -/
def strobeFlashRun (s : StrobeFlash × Int) : Nat → StrobeFlash × Int
  | 0 => s
  | n + 1 =>
    let r := strobeFlashMutate s.1 s.2
    strobeFlashRun (r.1, r.2.1) n

/-- Whether the `k`-th call of `mutate` (1-indexed) starting from state `s`
sets the light to `max_light`. -/
def strobeFlashEventAt (s : StrobeFlash × Int) (k : Nat) : Bool :=
  let t := strobeFlashRun s (k - 1)
  (strobeFlashMutate t.1 t.2).2.2

/-- The state of a `FireFlicker` thinker from src/lights.rs, minus the
shared sector reference and the RNG (random draws are passed to
`fireFlickerMutate` explicitly). -/
structure FireFlicker where
  min_light : Int
  max_light : Int
  count : Int
deriving Repr, DecidableEq

/-- `FireFlicker::new` from src/lights.rs: `min_light` is the surrounding
minimum plus 16, `max_light` the sector's light level, and the countdown
starts at 4. -/
def fireFlickerNew (linedefs : List Linedef) (sector : Sector) : FireFlicker :=
  { min_light := findMinSurroundingLight linedefs sector.id sector.light_level + 16
    max_light := sector.light_level
    count := 4 }

/-- One call of `<FireFlicker as Thinker>::mutate` from src/lights.rs.
`rngDraw` stands for the value the thread RNG produced for
`rng.gen_range(0..4)` (consumed only when the countdown expires).  Input
also carries the sector's current light level; output is the new thinker
state and the new light level. -/
def fireFlickerMutate (f : FireFlicker) (light : Int) (rngDraw : Int) :
    FireFlicker × Int :=
  let count := f.count - 1
  if 0 < count then ({ f with count }, light)
  else
    let amount := rngDraw * 16
    let light :=
      if light - amount < f.min_light then f.min_light
      else f.max_light - amount
    ({ f with count := 4 }, light)

/-- Iterate `fireFlickerMutate` over a list of per-call RNG draws. -/
def fireFlickerRun (s : FireFlicker × Int) : List Int → FireFlicker × Int
  | [] => s
  | r :: rs => fireFlickerRun (fireFlickerMutate s.1 s.2 r) rs

/-! ### src/map_objects.rs: map-object construction -/

/-- `ThingTypes` discriminants from src/map/things.rs. -/
def ThingTypes.Player1Start : Int := 1

/-- `ThingTypes::Player4Start` from src/map/things.rs. -/
def ThingTypes.Player4Start : Int := 4

/-- `ThingTypes::DeathMatchStart` from src/map/things.rs. -/
def ThingTypes.DeathMatchStart : Int := 11

/-- `Thing` from src/map/things.rs. -/
structure Thing where
  x : Rat
  y : Rat
  angle : Rat
  thing_type : Int
  flags : Int
deriving Repr, DecidableEq

/-- Modelled from the spec: an animation `State` record of the state table
`STATES` in the generated module src/info.rs, which is absent from the
repository snapshot (it is produced by the `multigen` tool).  Per the spec a
state holds a sprite, a frame index, a tic counter, a full-bright bit, an
action-name placeholder and the id of the next state. -/
structure State where
  sprite : Nat
  frame : Nat
  tics : Int
  action : String
  next_state : Nat
  full_bright : Bool
deriving Repr, DecidableEq

/-- Modelled from the spec: a `MapObjectInfo` record of the table
`MAP_OBJECT_INFOS` in the generated module src/info.rs, absent from the
repository snapshot.  Per the spec it is a type descriptor with id,
spawn/death/xdeath state ids, radius and height. -/
structure MapObjectInfo where
  id : Int
  spawn_state : Nat
  radius : Rat
  height : Rat
  death_state : Nat
  xdeath_state : Nat
deriving Repr, DecidableEq

/-- `MapObject` from src/map_objects.rs. -/
structure MapObject where
  info : MapObjectInfo
  state : State
  x : Rat
  y : Rat
  angle : Rat
  flags : Int
deriving Repr, DecidableEq

/-- `MapObjects::index_map_object_infos` from src/map_objects.rs: a
`HashMap` built by inserting every row keyed by id (a later row with the
same id overwrites an earlier one), modelled as last-match lookup. -/
def indexMapObjectInfos (infos : List MapObjectInfo) (thingType : Int) :
    Option MapObjectInfo :=
  infos.reverse.find? (fun info => info.id = thingType)

/-- `MapObjects::new` from src/map_objects.rs: player starts (types 1..=4)
and deathmatch starts (type 11) are skipped; every other thing's type is
looked up in the info table with `.unwrap()` — a missing type is a panic,
modelled as `none` — and its spawn state is fetched from `STATES` (an
out-of-range state id is an index panic, also `none`). -/
def mapObjectsNew (infos : List MapObjectInfo) (states : List State)
    (things : List Thing) : Option (List MapObject) :=
  things.foldlM
    (fun objects thing =>
      if (ThingTypes.Player1Start ≤ thing.thing_type ∧
            thing.thing_type ≤ ThingTypes.Player4Start) ∨
          thing.thing_type = ThingTypes.DeathMatchStart then
        some objects
      else do
        let info ← indexMapObjectInfos infos thing.thing_type
        let state ← states.get? info.spawn_state
        some (objects ++ [{ info := info, state := state, x := thing.x,
                            y := thing.y, angle := thing.angle,
                            flags := thing.flags }]))
    []

/-! ### src/pictures.rs and src/bitmap.rs: pictures and mirroring -/

/-- Rust `i16 as usize`: sign-extend into the 64-bit unsigned range. -/
def i16AsUsize (n : Int) : Nat := (n % 18446744073709551616).toNat

/-- The Rust tuple swap `(row[x], row[y]) = (row[y], row[x])` in
`Picture::mirror`: both elements are read and then written back crosswise;
an out-of-bounds index is a panic, modelled as `none`. -/
def rowSwap (row : List (Option Nat)) (i j : Nat) : Option (List (Option Nat)) := do
  let a ← row.get? i
  let b ← row.get? j
  some ((row.set i b).set j a)

/-- The inner loop of `Picture::mirror` from src/pictures.rs:
`for x in 0..width/2` swap `row[x]` with `row[width - 1 - x]`.  `x` is the
next loop index and `m` the number of iterations left. -/
def mirrorRowAux (w : Nat) : List (Option Nat) → Nat → Nat → Option (List (Option Nat))
  | row, _, 0 => some row
  | row, x, m + 1 => do
    let r ← rowSwap row x (w - 1 - x)
    mirrorRowAux w r (x + 1) m

/-- Mirror one bitmap row of width `w` (the full inner loop). -/
def mirrorRow (row : List (Option Nat)) (w : Nat) : Option (List (Option Nat)) :=
  mirrorRowAux w row 0 (w / 2)

/-- The outer loop of `Picture::mirror`: `for y in 0..height` mirror row
`y` in place.  `y` is the next row index and `m` the number of rows left. -/
def mirrorRowsAux (w : Nat) :
    List (List (Option Nat)) → Nat → Nat → Option (List (List (Option Nat)))
  | pixels, _, 0 => some pixels
  | pixels, y, m + 1 => do
    let row ← pixels.get? y
    let r ← mirrorRow row w
    mirrorRowsAux w (pixels.set y r) (y + 1) m

/-- `Bitmap` from src/bitmap.rs: a `width` × `height` grid of optional
palette bytes (`none` is transparent). -/
structure Bitmap where
  width : Int
  height : Int
  pixels : List (List (Option Nat))
deriving Repr, DecidableEq

/-- The bitmap part of `Picture::mirror` from src/pictures.rs: clone the
bitmap and swap each row's cells pairwise around the vertical centre. -/
def bitmapMirror (b : Bitmap) : Option Bitmap := do
  let pixels ← mirrorRowsAux (i16AsUsize b.width) b.pixels 0 (i16AsUsize b.height)
  some { b with pixels }

/-- `Picture` from src/pictures.rs. -/
structure Picture where
  name : String
  wad_offset : Nat
  bitmap : Bitmap
  left_offset : Int
  top_offset : Int
deriving Repr, DecidableEq

/-- `Picture::mirror` from src/pictures.rs: a new picture with the mirrored
bitmap and all other fields copied. -/
def pictureMirror (p : Picture) : Option Picture := do
  let bitmap ← bitmapMirror p.bitmap
  some { p with bitmap }

/-! ### Geometry (src/map/vertexes.rs, src/geometry.rs) -/

/-- `Vertex` from src/map/vertexes.rs: a 2D `f32` point, modelled over the
rationals. -/
structure Vertex where
  x : Rat
  y : Rat
deriving Repr, DecidableEq

/-- `Vertex` subtraction (the `Sub` impl in src/map/vertexes.rs). -/
def Vertex.sub (a b : Vertex) : Vertex := ⟨a.x - b.x, a.y - b.y⟩

/-- `Vertex` addition (the `Add` impl in src/map/vertexes.rs). -/
def Vertex.add (a b : Vertex) : Vertex := ⟨a.x + b.x, a.y + b.y⟩

/-- `Vertex::rotate` from src/map/vertexes.rs:
`(x cos θ − y sin θ, y cos θ + x sin θ)`.  The source computes
`angle.cos()` and `angle.sin()` with `f32` trigonometry, which has no exact
rational counterpart, so the embedding takes the cosine `c` and sine `s` of
the rotation angle as precomputed values. -/
def Vertex.rotate (v : Vertex) (c s : Rat) : Vertex :=
  ⟨v.x * c - v.y * s, v.y * c + v.x * s⟩

/-- `Vertex::cross_product` from src/map/vertexes.rs. -/
def Vertex.crossProduct (a b : Vertex) : Rat := a.x * b.y - a.y * b.x

/-- `Line` from src/geometry.rs (the Rust field `end` is a Lean keyword and
is named `endp` here). -/
structure Line where
  start : Vertex
  endp : Vertex
deriving Repr, DecidableEq

/-- `Vertex::is_left_of_line` from src/map/vertexes.rs: the cross product of
`self − start` with `end − start` is non-positive. -/
def Vertex.isLeftOfLine (v : Vertex) (line : Line) : Bool :=
  decide ((v.sub line.start).crossProduct (line.endp.sub line.start) ≤ 0)

/-- `Line::intersection` from src/geometry.rs: the standard two-line
intersection formula; lines with `|determinant| < 0.001` are reported as
parallel (`Err`, modelled as `none`). -/
def Line.intersection (l other : Line) : Option Vertex :=
  let x1 := l.start.x
  let y1 := l.start.y
  let x2 := l.endp.x
  let y2 := l.endp.y
  let x3 := other.start.x
  let y3 := other.start.y
  let x4 := other.endp.x
  let y4 := other.endp.y
  let quot := (x1 - x2) * (y3 - y4) - (y1 - y2) * (x3 - x4)
  if |quot| < 1 / 1000 then none
  else
    let invquot := 1 / quot
    let px := invquot * ((x1 * y2 - y1 * x2) * (x3 - x4) - (x1 - x2) * (x3 * y4 - y3 * x4))
    let py := invquot * ((x1 * y2 - y1 * x2) * (y3 - y4) - (y1 - y2) * (x3 * y4 - y3 * x4))
    some ⟨px, py⟩

/-! ### Segs, subsectors and the BSP tree (src/map/segs.rs,
src/map/subsectors.rs, src/map/nodes.rs) -/

/-- `Seg` from src/map/segs.rs.  The `Rc` references to the vertices and
the linedef are inlined by value, which is faithful because the map is
immutable while the renderer runs.  The linedef's own vertex references are
not read by any code modelled here and are left out of `Linedef`. -/
structure Seg where
  id : Int
  start_vertex : Vertex
  end_vertex : Vertex
  angle : Int
  linedef : Linedef
  direction : Bool
  offset : Int
deriving Repr, DecidableEq

/-- `SubSector` from src/map/subsectors.rs. -/
structure SubSector where
  segs : List Seg
deriving Repr, DecidableEq

/-- `BoundingBox` from src/geometry.rs. -/
structure BoundingBox where
  top : Rat
  bottom : Rat
  left : Rat
  right : Rat
deriving Repr, DecidableEq

mutual

/-- `Node` from src/map/nodes.rs: a partition line, two bounding boxes and
two children.  The `Rc<Node>` child references produced by `load_nodes`
always point at already-built nodes, so the reachable structure is a finite
tree value, modelled by this inductive. -/
inductive BspNode where
  | mk (x y dx dy : Rat) (right_bounding_box left_bounding_box : BoundingBox)
      (right_child left_child : BspChild)

/-- `NodeChild` from src/map/nodes.rs: either a node or a subsector. -/
inductive BspChild where
  | node (n : BspNode)
  | subSector (s : SubSector)

end

/-- The raw 28-byte node record as read from the WAD by `load_nodes`
(src/map/nodes.rs): partition line, bounding boxes, and the two raw `i16`
child indices. -/
structure NodeRec where
  x : Rat
  y : Rat
  dx : Rat
  dy : Rat
  right_bounding_box : BoundingBox
  left_bounding_box : BoundingBox
  right_child : Int
  left_child : Int
deriving Repr, DecidableEq

/-- `NodeChild::from_index` from src/map/nodes.rs: the high bit of the
`i16` index (`index & NODE_IS_SUBSECTOR != 0`, i.e. the index is negative)
selects a subsector, and the low 15 bits (`index & !NODE_IS_SUBSECTOR`,
i.e. `index mod 2^15`) select the element.  An out-of-range element index
is a Rust index panic, modelled as `none`. -/
def nodeChildFromIndex (index : Int) (nodes : List BspNode)
    (subsectors : List SubSector) : Option BspChild :=
  let isSubsector := index < 0
  let strippedIndex := (index % 32768).toNat
  if isSubsector then (subsectors.get? strippedIndex).map BspChild.subSector
  else (nodes.get? strippedIndex).map BspChild.node

/-- `load_nodes` from src/map/nodes.rs: fold over the records in file
order, resolving each child index against the nodes built so far (bottom-up
build). -/
def loadNodes (recs : List NodeRec) (subsectors : List SubSector) :
    Option (List BspNode) :=
  recs.foldlM
    (fun nodes r => do
      let rightChild ← nodeChildFromIndex r.right_child nodes subsectors
      let leftChild ← nodeChildFromIndex r.left_child nodes subsectors
      some (nodes ++ [BspNode.mk r.x r.y r.dx r.dy r.right_bounding_box
        r.left_bounding_box rightChild leftChild]))
    []

/-- The descent loop of `get_sector_from_vertex` from src/renderer/bsp.rs:
at each node take the left child when the vertex is left of the partition
line, else the right child, until a subsector is reached.  The embedding
adds explicit fuel: `none` means the loop did not finish within `fuel`
iterations. -/
def getSectorFromVertexLoop (vertex : Vertex) : Nat → BspNode → Option SubSector
  | 0, _ => none
  | fuel + 1, .mk x y dx dy _ _ rightChild leftChild =>
    let v1 : Vertex := ⟨x, y⟩
    let v2 := v1.add ⟨dx, dy⟩
    let isLeft := vertex.isLeftOfLine ⟨v1, v2⟩
    match (if isLeft then leftChild else rightChild) with
    | .node childNode => getSectorFromVertexLoop vertex fuel childNode
    | .subSector subsector => some subsector

/-- The subsector scan at the end of `get_sector_from_vertex`: the sector of
the first seg (in order) that has a sidedef on its facing side, or `none`
(vertex outside the map). -/
def subSectorSector (s : SubSector) : Option Sector :=
  s.segs.findSome? (fun seg =>
    if seg.direction then seg.linedef.back_sidedef.map (·.sector)
    else seg.linedef.front_sidedef.map (·.sector))

/-- `get_sector_from_vertex` from src/renderer/bsp.rs, with fuel for the
loop: outer `none` means the loop did not terminate within `fuel`
iterations; the inner option is the function's own result. -/
def getSectorFromVertex (fuel : Nat) (vertex : Vertex) (root : BspNode) :
    Option (Option Sector) :=
  (getSectorFromVertexLoop vertex fuel root).map subSectorSector

/-! ### src/renderer/misc.rs, src/renderer/segs.rs: seg processing and the
occlusion state

The embedding below follows `Segs::process_seg` and `Segs::process_sidedef`
exactly for everything that reads or writes the per-frame occlusion state
(`hor_ocl`, `floor_ver_ocl`, `ceiling_ver_ocl`) or that can panic or return
early.  The outputs that never feed back into that state — the pixel buffer
writes of `render_vertical_bitmap_line`, the visplane accumulator
(`SidedefVisPlanes`, which only collects screen points and flushes them into
the per-frame visplane list), and the `BitmapRender` seg queue — are not
modelled, and the `process_sidedef` parameters consumed only by them
(texture offsets, light level, flats, sector heights) are dropped. -/

/-- Rust `f32 as i16`: truncate toward zero, saturate into i16 bounds. -/
def f32AsI16 (q : Rat) : Int :=
  if q ≤ -32768 then -32768
  else if (32767 : Rat) ≤ q then 32767
  else ratTrunc q

/-- `SdlLine` endpoints (`sdl2::rect::Point`): a pair of `i32` screen
coordinates. -/
structure ScreenPoint where
  x : Int
  y : Int
deriving Repr, DecidableEq

/-- `SdlLine` from src/renderer/sdl_line.rs. -/
structure SdlLine where
  start : ScreenPoint
  endp : ScreenPoint
deriving Repr, DecidableEq

/-- `perspective_transform` from src/renderer/misc.rs: viewport point
`(F·x/z, F·y/z)` with `x := v.y`, `z := v.x`, `F := GAME_CAMERA_FOCUS_X`.
For `z = 0` the `f32` division produces an infinity or NaN while rational
division produces 0; every use in the theorems below keeps `z ≠ 0`. -/
def perspectiveTransform (v : Vertex) (y : Rat) : Vertex :=
  let x := v.y
  let z := v.x
  ⟨GAME_CAMERA_FOCUS_X * x / z, GAME_CAMERA_FOCUS_X * y / z⟩

/-- `make_sidedef_non_vertical_line` from src/renderer/misc.rs: project both
endpoints at the given height, narrow the x coordinates by the aspect-ratio
correction, convert to screen coordinates with `as i32` casts, and clamp
both x coordinates to at most `SCREEN_WIDTH - 1`. -/
def makeSidedefNonVerticalLine (line : Line) (height : Rat) : SdlLine :=
  let transformedStart := perspectiveTransform line.start height
  let transformedEnd := perspectiveTransform line.endp height
  let tsx := transformedStart.x * ASPECT_RATIO_CORRECTION
  let tex := transformedEnd.x * ASPECT_RATIO_CORRECTION
  let screenStart : ScreenPoint :=
    ⟨f32AsI32 (CAMERA_FOCUS_X - tsx), f32AsI32 (CAMERA_FOCUS_Y - transformedStart.y)⟩
  let screenEnd : ScreenPoint :=
    ⟨f32AsI32 (CAMERA_FOCUS_X - tex), f32AsI32 (CAMERA_FOCUS_Y - transformedEnd.y)⟩
  ⟨⟨min screenStart.x ((SCREEN_WIDTH : Int) - 1), screenStart.y⟩,
   ⟨min screenEnd.x ((SCREEN_WIDTH : Int) - 1), screenEnd.y⟩⟩

/-- `clip_to_viewport` from src/renderer/misc.rs: clip a line in player
coordinates against the two 45° viewport lines.  `none` is the source's
`None` (seg not in view).  The `start_offset` field of the source's
`ClippedLine` (the clip distance at the start, a `sqrt`-based length used
only as a texture-U correction and never read by the occlusion logic) is
omitted, so the result is the clipped line itself.  The `unwrap()` calls on
the intersections are guarded by `left_intersected`/`right_intersected` and
cannot panic; they are modelled with a default that is never reached. -/
def clipToViewport (line : Line) : Option Line :=
  let left : Line := ⟨⟨0, 0⟩, ⟨1, 1⟩⟩
  let right : Line := ⟨⟨0, 0⟩, ⟨1, -1⟩⟩
  let startOutsideLeft := line.start.isLeftOfLine left
  let endOutsideLeft := line.endp.isLeftOfLine left
  let startOutsideRight := !(line.start.isLeftOfLine right)
  let endOutsideRight := !(line.endp.isLeftOfLine right)
  let startInViewport := decide (0 < line.start.x) && !startOutsideLeft && !startOutsideRight
  let endInViewport := decide (0 < line.endp.x) && !endOutsideLeft && !endOutsideRight
  if startInViewport && endInViewport then some line
  else
    let leftIntersection := line.intersection left
    let rightIntersection := line.intersection right
    let leftIntersected :=
      match leftIntersection with
      | some p => decide (0 ≤ p.x)
      | none => false
    let rightIntersected :=
      match rightIntersection with
      | some p => decide (0 ≤ p.x)
      | none => false
    if !startInViewport && !endInViewport && !leftIntersected && !rightIntersected then
      none
    else if !startInViewport && !endInViewport && (leftIntersected != rightIntersected) then
      none
    else if (rightIntersected && startOutsideRight && endOutsideRight) ||
        (leftIntersected && startOutsideLeft && endOutsideLeft) then
      none
    else
      let start := line.start
      let endp := line.endp
      let start := if leftIntersected && startOutsideLeft then
          leftIntersection.getD ⟨0, 0⟩ else start
      let endp := if leftIntersected && endOutsideLeft then
          leftIntersection.getD ⟨0, 0⟩ else endp
      let start := if rightIntersected && startOutsideRight then
          rightIntersection.getD ⟨0, 0⟩ else start
      let endp := if rightIntersected && endOutsideRight then
          rightIntersection.getD ⟨0, 0⟩ else endp
      some ⟨start, endp⟩

/-- Rust `str::contains(pattern)` for a literal pattern (used by the
sky-hack test `ceiling_texture.contains("SKY")` in src/renderer/segs.rs):
true iff the pattern occurs as a contiguous substring. -/
def strContains (s pat : String) : Bool :=
  let l := s.toList
  let p := pat.toList
  (List.range (l.length + 1)).any (fun i => p.isPrefixOf (l.drop i))

/-- `Player` from src/game.rs.  The source stores `angle: f32`; since `f32`
trigonometry has no exact rational counterpart, the embedding carries the
cosine and sine of the player angle as precomputed fields (the renderer
only ever uses the angle through `rotate(-angle)`, i.e. through
`cos angle` and `-sin angle`). -/
structure Player where
  position : Vertex
  floor_height : Rat
  angleCos : Rat
  angleSin : Rat
deriving Repr, DecidableEq

/-- The per-frame occlusion state of `Segs` from src/renderer/segs.rs:
`hor_ocl` (fully-occluded columns), `floor_ver_ocl` and `ceiling_ver_ocl`
(vertical occlusion bounds), each indexed by screen column. -/
structure SegsState where
  hor_ocl : Nat → Bool
  floor_ver_ocl : Nat → Int
  ceiling_ver_ocl : Nat → Int

/-- The initial occlusion state set up by `Segs::new`:
no column occluded, `floor_ver_ocl = SCREEN_HEIGHT`,
`ceiling_ver_ocl = -1`. -/
def segsNew : SegsState :=
  { hor_ocl := fun _ => false
    floor_ver_ocl := fun _ => (SCREEN_HEIGHT : Int)
    ceiling_ver_ocl := fun _ => -1 }

/-- `Segs::occlude_vertical_line` from src/renderer/segs.rs: mark the
column fully occluded and set both vertical bounds to
`SCREEN_HEIGHT / 2`. -/
def occludeVerticalLine (s : SegsState) (x : Nat) : SegsState :=
  { hor_ocl := Function.update s.hor_ocl x true
    floor_ver_ocl := Function.update s.floor_ver_ocl x ((SCREEN_HEIGHT : Int) / 2)
    ceiling_ver_ocl := Function.update s.ceiling_ver_ocl x ((SCREEN_HEIGHT : Int) / 2) }

/-- The flag parameters of `Segs::process_sidedef` together with the
derived `is_full_height_wall`. -/
structure SidedefFlags where
  only_occlusions : Bool
  is_lower_wall : Bool
  is_upper_wall : Bool
  draw_ceiling : Bool
  is_two_sided_middle_wall : Bool
deriving Repr, DecidableEq

/-- `is_full_height_wall` as computed in `Segs::process_sidedef`. -/
def SidedefFlags.isFullHeightWall (p : SidedefFlags) : Bool :=
  !p.is_lower_wall && !p.is_upper_wall && !p.only_occlusions

/-- The body of the `if !self.hor_ocl[x]` block of the per-column loop of
`Segs::process_sidedef` (src/renderer/segs.rs lines 178–305), restricted to
its effect on the occlusion state.  `bottomY`/`topY` are the two `i16`
screen heights computed at the top of the block.  The branches that only
draw pixels or accumulate visplane points are no-ops on this state; the
rare-gap branch calls `occlude_vertical_line` exactly as in the source. -/
def processSidedefColumnInner (p : SidedefFlags) (bottomY topY : Int)
    (xn : Nat) (s : SegsState) : SegsState :=
  let floorVerOcl := s.floor_ver_ocl xn
  let ceilingVerOcl := s.ceiling_ver_ocl xn
  let clippedBottomY := min floorVerOcl bottomY
  let clippedTopY := max ceilingVerOcl topY
  let clippedBottomY := min ((SCREEN_HEIGHT : Int) - 1) clippedBottomY
  let clippedTopY := max 0 clippedTopY
  let inVerClippedArea := decide (clippedTopY ≤ clippedBottomY)
  let s :=
    if !p.is_two_sided_middle_wall && inVerClippedArea &&
        (p.isFullHeightWall || p.only_occlusions) then
      s
    else if !p.is_two_sided_middle_wall && !inVerClippedArea &&
        (p.isFullHeightWall || p.only_occlusions) &&
        decide (ceilingVerOcl < floorVerOcl) then
      let s := if decide (bottomY ≤ ceilingVerOcl) then occludeVerticalLine s xn else s
      let s := if p.draw_ceiling && decide (floorVerOcl ≤ topY) then
          occludeVerticalLine s xn
        else s
      s
    else s
  let s :=
    if !p.is_two_sided_middle_wall && inVerClippedArea && p.only_occlusions then
      { s with
        floor_ver_ocl := Function.update s.floor_ver_ocl xn clippedBottomY
        ceiling_ver_ocl :=
          if p.draw_ceiling then Function.update s.ceiling_ver_ocl xn clippedTopY
          else s.ceiling_ver_ocl }
    else s
  let s :=
    if !p.is_two_sided_middle_wall && inVerClippedArea && p.is_lower_wall then
      { s with floor_ver_ocl := Function.update s.floor_ver_ocl xn clippedTopY }
    else s
  let s :=
    if !p.is_two_sided_middle_wall && inVerClippedArea && p.is_upper_wall then
      { s with ceiling_ver_ocl := Function.update s.ceiling_ver_ocl xn clippedBottomY }
    else s
  s

/-- One iteration of the per-column loop of `Segs::process_sidedef`
(src/renderer/segs.rs lines 176–314), restricted to its effect on the
occlusion state.  `bottom`/`top` are the two non-vertical screen lines and
`bottomDelta`/`topDelta` their slopes as computed before the loop; the body
of the not-yet-occluded branch is `processSidedefColumnInner` and the
full-height-wall tail calls `occlude_vertical_line` exactly as in the
source. -/
def processSidedefColumn (p : SidedefFlags) (bottom top : SdlLine)
    (bottomDelta topDelta : Rat) (s : SegsState) (x : Int) : SegsState :=
  let xn := x.toNat
  let s :=
    if !(s.hor_ocl xn) then
      processSidedefColumnInner p
        (f32AsI16 ((bottom.start.y : Rat) +
          ((x : Rat) - (bottom.start.x : Rat)) * bottomDelta))
        (f32AsI16 ((top.start.y : Rat) +
          ((x : Rat) - (top.start.x : Rat)) * topDelta))
        xn s
    else s
  if !p.is_two_sided_middle_wall && p.isFullHeightWall then occludeVerticalLine s xn
  else s

/-- The list of loop indices of a Rust `for x in a..b` over integers. -/
def intRange (a b : Int) : List Int :=
  (List.range (b - a).toNat).map (fun i => a + (i : Int))

/-- `Segs::process_sidedef` from src/renderer/segs.rs, restricted to its
effect on the occlusion state (see the section comment).  `texKnown` stands
for the names present in the texture store: `Textures::get` panics on an
unknown name (`none` models any panic).  The early `return` for a
side-on wall and the two `panic!` sanity checks are modelled first, then the
per-column loop runs over `bottom.start.x as i16 .. bottom.end.x as i16 + 1`. -/
def processSidedef (texKnown : String → Bool) (s : SegsState)
    (clippedLine : Line) (bottomHeight topHeight : Rat) (textureName : String)
    (p : SidedefFlags) : Option SegsState :=
  let bottom := makeSidedefNonVerticalLine clippedLine bottomHeight
  let top := makeSidedefNonVerticalLine clippedLine topHeight
  if textureName ≠ "-" && !texKnown textureName then none
  else if bottom.start.x ≠ top.start.x || bottom.endp.x ≠ top.endp.x then none
  else if i32AsI16 bottom.start.x = i32AsI16 bottom.endp.x ||
      i32AsI16 top.start.x = i32AsI16 top.endp.x then some s
  else if bottom.start.x < 0 || (SCREEN_WIDTH : Int) ≤ bottom.start.x ||
      bottom.endp.x < 0 || (SCREEN_WIDTH : Int) ≤ bottom.endp.x then none
  else if top.start.x < 0 || (SCREEN_WIDTH : Int) ≤ top.start.x ||
      top.endp.x < 0 || (SCREEN_WIDTH : Int) ≤ top.endp.x then none
  else
    let bottomDelta := ((bottom.start.y : Rat) - (bottom.endp.y : Rat)) /
      ((bottom.start.x : Rat) - (bottom.endp.x : Rat))
    let topDelta := ((top.start.y : Rat) - (top.endp.y : Rat)) /
      ((top.start.x : Rat) - (top.endp.x : Rat))
    let xs := intRange (i32AsI16 bottom.start.x) (i32AsI16 bottom.endp.x + 1)
    some (xs.foldl (processSidedefColumn p bottom top bottomDelta topDelta) s)

/-- The animated-flat cycle table hard-coded in `Flats::new`
(src/flats.rs). -/
def animatedFlatsLists : List (List String) :=
  [["NUKAGE1", "NUKAGE2", "NUKAGE3"],
   ["FWATER1", "FWATER2", "FWATER3", "FWATER4"],
   ["SWATER1", "SWATER2", "SWATER3", "SWATER4"],
   ["LAVA1", "LAVA2", "LAVA3", "LAVA4"],
   ["BLOOD1", "BLOOD2", "BLOOD3"],
   ["RROCK05", "RROCK06", "RROCK07", "RROCK08"],
   ["SLIME01", "SLIME02", "SLIME03", "SLIME04"],
   ["SLIME05", "SLIME06", "SLIME07", "SLIME08"],
   ["SLIME09", "SLIME10", "SLIME11", "SLIME12"]]

/-- `Flats::get_animated` from src/flats.rs, reduced to the name of the
flat it loads: an animated name cycles at 3 Hz through its list, any other
name passes through.  `flatKnown` stands for the lumps present in the WAD:
`Flats::get` panics (via `unwrap`) on a name with no lump, modelled as
`none`. -/
def flatsGetAnimated (flatKnown : String → Bool) (name : String)
    (timestamp : Rat) : Option String :=
  let resolved :=
    match animatedFlatsLists.find? (fun list => list.contains name) with
    | some list =>
      let cycle := ((timestamp - ratTrunc timestamp) * 3).floor.toNat
      list.getD cycle ""
    | none => name
  if flatKnown resolved then some resolved else none

/-- The body of `Segs::process_seg` from src/renderer/segs.rs after the
front/back sidedef selection, restricted to its effect on the occlusion
state.  All early returns (`return` on a missing front sidedef, a
clipped-away seg, or a back-facing seg) leave the state unchanged; the
`panic!` on `clipped_line.line.start.x < -0.01` and panics inside
`process_sidedef` or the flat store are `none`.  The sidedef calls mirror
the source's order: solid wall, or else the full-height occlusion-only
pass, the two-sided middle, the lower wall and the upper wall. -/
def processSegCore (texKnown flatKnown : String → Bool) (player : Player)
    (timestamp : Rat) (s : SegsState) (linedefFlags : Int)
    (startVertex endVertex : Vertex)
    (optFrontSidedef optBackSidedef : Option Sidedef) : Option SegsState :=
  match optFrontSidedef with
  | none => some s
  | some frontSidedef =>
    let frontSector := frontSidedef.sector
    let floorHeight := (frontSector.floor_height : Rat)
    let ceilingHeight := (frontSector.ceiling_height : Rat)
    let portalHeightPair : Option Rat × Option Rat :=
      match optBackSidedef with
      | some backSidedef =>
        let backSector := backSidedef.sector
        ((if frontSector.floor_height < backSector.floor_height then
            some (backSector.floor_height : Rat) else none),
         (if backSector.ceiling_height < frontSector.ceiling_height then
            some (backSector.ceiling_height : Rat) else none))
      | none => (none, none)
    let optPortalBottomHeight := portalHeightPair.1
    let optPortalTopHeight := portalHeightPair.2
    let isTwoSided := flagSet linedefFlags Flags.TWOSIDED
    let movedStart := startVertex.sub player.position
    let movedEnd := endVertex.sub player.position
    let start := movedStart.rotate player.angleCos (-player.angleSin)
    let endv := movedEnd.rotate player.angleCos (-player.angleSin)
    let line : Line := ⟨start, endv⟩
    match clipToViewport line with
    | none => some s
    | some clippedLine =>
      if clippedLine.start.x < -(1 / 100 : Rat) then none
      else
        let playerHeight := player.floor_height + PLAYER_EYE_HEIGHT
        let floor := makeSidedefNonVerticalLine clippedLine (floorHeight - playerHeight)
        if floor.endp.x < floor.start.x then some s
        else
          (flatsGetAnimated flatKnown frontSector.floor_texture timestamp).bind
            (fun _floorFlat =>
          (flatsGetAnimated flatKnown frontSector.ceiling_texture timestamp).bind
            (fun _ceilingFlat =>
          let skyHack :=
            match optBackSidedef with
            | some backSidedef =>
              strContains frontSidedef.sector.ceiling_texture "SKY" &&
                strContains backSidedef.sector.ceiling_texture "SKY"
            | none => false
          let optPortalTopHeight := if skyHack then none else optPortalTopHeight
          let ceilingHeight :=
            if skyHack then
              match optBackSidedef with
              | some backSidedef => (backSidedef.sector.ceiling_height : Rat)
              | none => ceilingHeight
            else ceilingHeight
          let drawCeiling := !skyHack
          if !isTwoSided then
            processSidedef texKnown s clippedLine (floorHeight - playerHeight)
              (ceilingHeight - playerHeight) frontSidedef.middle_texture
              { only_occlusions := false, is_lower_wall := false,
                is_upper_wall := false, draw_ceiling := drawCeiling,
                is_two_sided_middle_wall := false }
          else
            (processSidedef texKnown s clippedLine (floorHeight - playerHeight)
              (ceilingHeight - playerHeight) frontSidedef.middle_texture
              { only_occlusions := true, is_lower_wall := false,
                is_upper_wall := false, draw_ceiling := drawCeiling,
                is_two_sided_middle_wall := false }).bind (fun s =>
            let midTextureFloorHeight := optPortalBottomHeight.getD floorHeight
            let midTextureCeilingHeight := optPortalTopHeight.getD ceilingHeight
            (processSidedef texKnown s clippedLine
              (midTextureFloorHeight - playerHeight)
              (midTextureCeilingHeight - playerHeight) frontSidedef.middle_texture
              { only_occlusions := false, is_lower_wall := false,
                is_upper_wall := false, draw_ceiling := drawCeiling,
                is_two_sided_middle_wall := true }).bind (fun s =>
            (match optPortalBottomHeight with
             | some portalBottomHeight =>
               processSidedef texKnown s clippedLine (floorHeight - playerHeight)
                 (portalBottomHeight - playerHeight) frontSidedef.lower_texture
                 { only_occlusions := false, is_lower_wall := true,
                   is_upper_wall := false, draw_ceiling := drawCeiling,
                   is_two_sided_middle_wall := false }
             | none => some s).bind (fun s =>
            (match optPortalTopHeight with
             | some portalTopHeight =>
               processSidedef texKnown s clippedLine (portalTopHeight - playerHeight)
                 (ceilingHeight - playerHeight) frontSidedef.upper_texture
                 { only_occlusions := false, is_lower_wall := false,
                   is_upper_wall := true, draw_ceiling := drawCeiling,
                   is_two_sided_middle_wall := false }
             | none => some s).bind (fun s =>
            some s))))))

/-- `Segs::process_seg` from src/renderer/segs.rs, restricted to its effect
on the occlusion state: select the front and back sidedefs according to the
seg direction, then run `processSegCore`. -/
def processSeg (texKnown flatKnown : String → Bool) (player : Player)
    (timestamp : Rat) (s : SegsState) (seg : Seg) : Option SegsState :=
  let linedef := seg.linedef
  let sidedefPair :=
    if seg.direction then (linedef.back_sidedef, linedef.front_sidedef)
    else (linedef.front_sidedef, linedef.back_sidedef)
  processSegCore texKnown flatKnown player timestamp s linedef.flags
    seg.start_vertex seg.end_vertex sidedefPair.1 sidedefPair.2

/-- The invariant of the occlusion state: a fully occluded column has both
vertical bounds at `SCREEN_HEIGHT / 2` (established by
`occlude_vertical_line`, the only writer of `hor_ocl`). -/
def SegsStateInv (s : SegsState) : Prop :=
  ∀ x, s.hor_ocl x = true →
    s.floor_ver_ocl x = (SCREEN_HEIGHT : Int) / 2 ∧
    s.ceiling_ver_ocl x = (SCREEN_HEIGHT : Int) / 2

/-- How one seg-processing step tightens the occlusion state: occluded
columns stay occluded and keep their values; on a still-unoccluded column
`floor_ver_ocl` does not increase and `ceiling_ver_ocl` does not decrease;
a column occluded by this step gets both bounds set to
`SCREEN_HEIGHT / 2`. -/
def OcclTightened (s s' : SegsState) : Prop :=
  ∀ x,
    (s.hor_ocl x = true →
      s'.hor_ocl x = true ∧
      s'.floor_ver_ocl x = s.floor_ver_ocl x ∧
      s'.ceiling_ver_ocl x = s.ceiling_ver_ocl x) ∧
    (s.hor_ocl x = false →
      (s'.hor_ocl x = false →
        s'.floor_ver_ocl x ≤ s.floor_ver_ocl x ∧
        s.ceiling_ver_ocl x ≤ s'.ceiling_ver_ocl x) ∧
      (s'.hor_ocl x = true →
        s'.floor_ver_ocl x = (SCREEN_HEIGHT : Int) / 2 ∧
        s'.ceiling_ver_ocl x = (SCREEN_HEIGHT : Int) / 2))

/-- A possibly failing seg-processing step only tightens the occlusion
state: every successful result satisfies the invariant and is a tightening
of the starting state. -/
def TightensFrom (s : SegsState) (m : Option SegsState) : Prop :=
  ∀ s', m = some s' → SegsStateInv s' ∧ OcclTightened s s'

mutual

/-- Height of a BSP node (for the termination bound of the descent loop). -/
def BspNode.depth : BspNode → Nat
  | .mk _ _ _ _ _ _ rc lc => max rc.depth lc.depth + 1

/-- Height of a BSP child. -/
def BspChild.depth : BspChild → Nat
  | .node n => n.depth
  | .subSector _ => 0

end

/-! ## Theorems -/

/-- C4, counterexample: the claim's first equation fails — the internal
screen width built by src/renderer/constants.rs is `SCREEN_WIDTH / (200/240)`
(that is, `SCREEN_WIDTH * 1.2 = 1228.8`), not `SCREEN_WIDTH / 1.2 ≈ 853.3`,
so the claimed conjunction is false. -/
theorem c4_projection_constants_counterexample :
    ¬ (GAME_SCREEN_WIDTH = (SCREEN_WIDTH : Rat) / (12 / 10) ∧
       GAME_CAMERA_FOCUS_X = GAME_SCREEN_WIDTH / 2 ∧
       CAMERA_FOCUS_X = (SCREEN_WIDTH : Rat) / 2 ∧
       CAMERA_FOCUS_Y = (SCREEN_HEIGHT : Rat) / 2) := by
  intro h
  have h1 := h.1
  norm_num [GAME_SCREEN_WIDTH, ASPECT_RATIO_CORRECTION, SCREEN_WIDTH] at h1

/-- C4, amended: the internal screen width is `SCREEN_WIDTH * 1.2` (the
source divides by the aspect-ratio correction `200/240 = 1/1.2`); the
camera focal constants are as claimed: `GAME_CAMERA_FOCUS_X` is half the
internal width, `CAMERA_FOCUS_X = SCREEN_WIDTH / 2` and
`CAMERA_FOCUS_Y = SCREEN_HEIGHT / 2`. -/
theorem c4_projection_constants :
    GAME_SCREEN_WIDTH = (SCREEN_WIDTH : Rat) * (12 / 10) ∧
    GAME_CAMERA_FOCUS_X = GAME_SCREEN_WIDTH / 2 ∧
    CAMERA_FOCUS_X = (SCREEN_WIDTH : Rat) / 2 ∧
    CAMERA_FOCUS_Y = (SCREEN_HEIGHT : Rat) / 2 :=
  ⟨by norm_num [GAME_SCREEN_WIDTH, ASPECT_RATIO_CORRECTION, SCREEN_WIDTH], rfl, rfl, rfl⟩

/-- C10: evaluating `Pixels::set` of src/renderer/pixels.rs at the coordinate
`(0, SCREEN_HEIGHT)`: the guard `x >= SCREEN_WIDTH || y > SCREEN_HEIGHT` lets
`y = SCREEN_HEIGHT` through, and the write at offset
`3 * (SCREEN_HEIGHT * SCREEN_WIDTH + 0)` is one past the end of the
`SCREEN_WIDTH * SCREEN_HEIGHT * 3`-byte buffer: the call panics (`none`)
instead of leaving the framebuffer unchanged as the claim states. -/
theorem c10_pixels_set_out_of_bounds :
    pixelsSet pixelsNew 0 SCREEN_HEIGHT ⟨255, 0, 0⟩ = none := by
  rw [pixelsSet]
  norm_num [pixelsNew, vecWrite, SCREEN_WIDTH, SCREEN_HEIGHT]

/-- C2: evaluating `MapObjects::new` of src/map_objects.rs on a map holding
one thing whose type (27) is not a player start (1–4), not a deathmatch
start (11) and not a key of the info table: the `.unwrap()` on the table
lookup panics (`none`) — construction fails instead of skipping the thing
with a diagnostic as the claim states. -/
theorem c2_unknown_thing_type_panics :
    mapObjectsNew
      [{ id := 3004, spawn_state := 0, radius := 20, height := 56,
         death_state := 1, xdeath_state := 2 }]
      [{ sprite := 0, frame := 0, tics := 10, action := "A_Look",
         next_state := 0, full_bright := false },
       { sprite := 0, frame := 1, tics := 10, action := "A_Look",
         next_state := 0, full_bright := false },
       { sprite := 0, frame := 2, tics := -1, action := "",
         next_state := 0, full_bright := false }]
      [{ x := 1056, y := -3616, angle := 0, thing_type := 27, flags := 7 }] = none := by
  decide

/-- C3, counterexample: a `FireFlicker` built by `FireFlicker::new` on a
sector with initial light 64 whose only neighbour has light 0 (so
`min_light = 0 + 16 = 16`, `max_light = 64`).  The 4th `mutate` call expires
the countdown with draw 3 and leaves the light at 16; the 8th call expires
the countdown with draw 1 (`amount = 16`) and sets the light to
`min_light = 16`, but the claim's formula demands
`max(min_light, max_light − amount) = max 16 48 = 48`. -/
theorem c3_fireflicker_counterexample :
    let target : Sector :=
      { id := 0, floor_height := 0, ceiling_height := 128, floor_texture := "FLAT14",
        ceiling_texture := "FLAT18", light_level := 64, special_type := 17,
        tag_number := 0 }
    let neighbor : Sector :=
      { id := 1, floor_height := 0, ceiling_height := 128, floor_texture := "FLAT14",
        ceiling_texture := "FLAT18", light_level := 0, special_type := 0,
        tag_number := 0 }
    let sideFront : Sidedef :=
      { id := 0, x_offset := 0, y_offset := 0, upper_texture := "-",
        lower_texture := "-", middle_texture := "-", sector := target }
    let sideBack : Sidedef :=
      { id := 1, x_offset := 0, y_offset := 0, upper_texture := "-",
        lower_texture := "-", middle_texture := "-", sector := neighbor }
    let linedefs : List Linedef :=
      [{ id := 0, flags := 4, special_type := 0, sector_tag := 0,
         front_sidedef := some sideFront, back_sidedef := some sideBack }]
    let f0 := fireFlickerNew linedefs target
    let s7 := fireFlickerRun (f0, target.light_level) [0, 0, 0, 3, 0, 0, 0]
    f0.min_light = 16 ∧ f0.max_light = 64 ∧
    s7.1.count = 1 ∧
    (fireFlickerMutate s7.1 s7.2 1).2 = 16 ∧
    (fireFlickerMutate s7.1 s7.2 1).2 ≠ max f0.min_light (f0.max_light - 1 * 16) := by
  decide

/-- C3, amended: when a `FireFlicker` countdown expires with draw
`rngDraw` (`amount = rngDraw * 16`), the new light is `min_light` if the
sector's *current* light minus `amount` is below `min_light`, and
`max_light − amount` otherwise; in particular the claimed value
`max(min_light, max_light − amount)` is produced exactly when the current
light equals `max_light`. -/
theorem c3_fireflicker_expiry (f : FireFlicker) (light rngDraw : Int)
    (hexpire : f.count ≤ 1) (hlight : light = f.max_light) :
    (fireFlickerMutate f light rngDraw).2 =
      max f.min_light (f.max_light - rngDraw * 16) := by
  rw [fireFlickerMutate]
  have hne : ¬ (0 < f.count - 1) := by omega
  rw [if_neg hne]
  subst hlight
  dsimp only
  split_ifs with h
  · omega
  · omega

/-- C3, witness for the amended theorem at a concrete expiring state. -/
theorem c3_fireflicker_expiry_witness :
    (fireFlickerMutate { min_light := 16, max_light := 64, count := 1 } 64 2).2 =
      max 16 (64 - 2 * 16) :=
  c3_fireflicker_expiry { min_light := 16, max_light := 64, count := 1 } 64 2
    (by decide) rfl

/-- C6, counterexample: the claim quantifies over every `t ≥ 0`, `dt ≥ 0`,
but the source computes `(timestamp * 35) as u32`, and the `as u32` cast
saturates at `u32::MAX = 4294967295`: adding `dt = 2^32` seconds to a fresh
clock fires 4294967295 ticks, not `floor(2^32 * 35) = 150323855360`. -/
theorem c6_game_clock_counterexample :
    ((gameEvolveTicks clockNew 0 4294967296).2.1 : Int) ≠
      ((0 + 4294967296 : Rat) * (CLOCK_HZ : Rat)).floor -
        ((0 : Rat) * (CLOCK_HZ : Rat)).floor := by
  have hsat : f32AsU32 ((0 + (4294967296 : Rat)) * (CLOCK_HZ : Rat)) = 4294967295 := by
    rw [f32AsU32]
    norm_num [CLOCK_HZ]
  have hval : (gameEvolveTicks clockNew 0 4294967296).2.1 = 4294967295 := by
    rw [gameEvolveTicks, clockAddElapsedInterval]
    simp only [clockNew]
    rw [hsat]
    norm_num
  rw [hval]
  have hfl1 : ((0 + 4294967296 : Rat) * (CLOCK_HZ : Rat)).floor = 150323855360 := by
    show ⌊(0 + 4294967296 : Rat) * (CLOCK_HZ : Rat)⌋ = 150323855360
    norm_num [CLOCK_HZ]
  have hfl2 : ((0 : Rat) * (CLOCK_HZ : Rat)).floor = 0 := by
    show ⌊(0 : Rat) * (CLOCK_HZ : Rat)⌋ = 0
    norm_num
  rw [hfl1, hfl2]
  norm_num

/-- C6, amended: for timestamps `t ≥ 0` and intervals `dt ≥ 0` with
`(t + dt) * 35` below the `u32` saturation bound `2^32`, a clock at
timestamp `t` whose elapsed ticks were all processed
(`last = floor(t * 35)`) fires exactly
`floor((t + dt) * 35) − floor(t * 35)` game ticks. -/
theorem c6_game_clock_ticks (c : Clock) (last : Nat) (t dt : Rat)
    (ht : 0 ≤ t) (hdt : 0 ≤ dt) (hts : c.timestamp = t)
    (hlast : (last : Int) = (t * (CLOCK_HZ : Rat)).floor)
    (hbound : (t + dt) * (CLOCK_HZ : Rat) < 4294967296) :
    ((gameEvolveTicks c last dt).2.1 : Int) =
      ((t + dt) * (CLOCK_HZ : Rat)).floor - (t * (CLOCK_HZ : Rat)).floor := by
  have hq0 : (0 : Rat) ≤ (t + dt) * (CLOCK_HZ : Rat) := by
    have : (0 : Rat) ≤ t + dt := by linarith
    positivity
  have hmono : (t * (CLOCK_HZ : Rat)).floor ≤ ((t + dt) * (CLOCK_HZ : Rat)).floor := by
    show ⌊t * (CLOCK_HZ : Rat)⌋ ≤ ⌊(t + dt) * (CLOCK_HZ : Rat)⌋
    apply Int.floor_le_floor
    have h35 : (0 : Rat) ≤ (CLOCK_HZ : Rat) := by norm_num [CLOCK_HZ]
    nlinarith
  have hfloor0 : (0 : Int) ≤ (t * (CLOCK_HZ : Rat)).floor := by
    rw [show (t * (CLOCK_HZ : Rat)).floor = ⌊t * (CLOCK_HZ : Rat)⌋ from rfl]
    apply Int.floor_nonneg.mpr
    have h35 : (0 : Rat) ≤ (CLOCK_HZ : Rat) := by norm_num [CLOCK_HZ]
    positivity
  have hticks : ((clockAddElapsedInterval c dt).ticks : Int) =
      ((t + dt) * (CLOCK_HZ : Rat)).floor := by
    rw [clockAddElapsedInterval]
    dsimp only
    rw [hts, f32AsU32]
    rcases le_or_lt ((t + dt) * (CLOCK_HZ : Rat)) 0 with hle | hpos
    · have hzero : (t + dt) * (CLOCK_HZ : Rat) = 0 := le_antisymm hle hq0
      rw [if_pos hle, hzero]
      show (0 : Int) = ⌊(0 : Rat)⌋
      norm_num
    · rw [if_neg (not_le.mpr hpos)]
      have hfltlt : ((t + dt) * (CLOCK_HZ : Rat)).floor < 4294967296 := by
        show ⌊(t + dt) * (CLOCK_HZ : Rat)⌋ < 4294967296
        exact Int.floor_lt.mpr (by push_cast; linarith)
      have hflnn : (0 : Int) ≤ ((t + dt) * (CLOCK_HZ : Rat)).floor := by
        show (0 : Int) ≤ ⌊(t + dt) * (CLOCK_HZ : Rat)⌋
        exact Int.floor_nonneg.mpr hq0
      by_cases hsat : (4294967295 : Rat) ≤ (t + dt) * (CLOCK_HZ : Rat)
      · rw [if_pos hsat]
        have hflge : (4294967295 : Int) ≤ ((t + dt) * (CLOCK_HZ : Rat)).floor := by
          show (4294967295 : Int) ≤ ⌊(t + dt) * (CLOCK_HZ : Rat)⌋
          exact Int.le_floor.mpr (by exact_mod_cast hsat)
        omega
      · rw [if_neg hsat]
        rw [ratTrunc, if_pos (le_of_lt hpos)]
        omega
  rw [gameEvolveTicks]
  split_ifs with h
  · push_cast
    omega
  · have hle2 : (clockAddElapsedInterval c dt).ticks ≤ last := not_lt.mp h
    have hcast : ((clockAddElapsedInterval c dt).ticks : Int) ≤ (last : Int) := by
      exact_mod_cast hle2
    dsimp only
    omega

/-- `List.findIdx?` only depends on the values of the predicate on the list
elements (helper for relating the source's comparison to the spec's). -/
theorem findIdxQ_congr {α : Type} (p q : α → Bool) :
    ∀ (l : List α) (i : Nat), (∀ a ∈ l, p a = q a) →
      List.findIdx? p l i = List.findIdx? q l i := by
  intro l
  induction l with
  | nil => intro i _; rfl
  | cons a t ih =>
    intro i h
    rw [List.findIdx?_cons, List.findIdx?_cons, h a (by simp)]
    cases hq : q a
    · simp only [Bool.false_eq_true, if_false]
      exact ih (i + 1) fun b hb => h b (by simp [hb])
    · simp

/-- C7: `get_dir_entry_for_map_lump` returns the directory entry at
position `index_of(map marker) + ordinal(kind)` whenever some entry's
uppercased name equals the uppercased map name (under the load invariant
that stored names are already uppercased), and fails (panics, `none`) when
no such entry exists. -/
theorem c7_map_lump_lookup (dirs : List DirEntry) (mapName : String)
    (k : MapLumpName)
    (hupper : ∀ e ∈ dirs, toAsciiUppercase e.name = e.name) :
    (∀ i, List.findIdx?
        (fun d => toAsciiUppercase d.name = toAsciiUppercase mapName) dirs = some i →
      getDirEntryForMapLump dirs mapName k = dirs.get? (i + k.ordinal)) ∧
    (List.findIdx?
        (fun d => toAsciiUppercase d.name = toAsciiUppercase mapName) dirs = none →
      getDirEntryForMapLump dirs mapName k = none) := by
  have heq : List.findIdx? (fun d => d.name = toAsciiUppercase mapName) dirs =
      List.findIdx? (fun d => toAsciiUppercase d.name = toAsciiUppercase mapName) dirs := by
    apply findIdxQ_congr
    intro d hd
    rw [hupper d hd]
  constructor
  · intro i hi
    rw [getDirEntryForMapLump, heq, hi]
  · intro hnone
    rw [getDirEntryForMapLump, heq, hnone]

/-- C7, witness: looking up the LINEDEFS lump of map "e1m1" in a small
directory whose marker sits at index 0. -/
theorem c7_map_lump_lookup_witness :
    getDirEntryForMapLump
      [⟨0, "E1M1", 12, 0⟩, ⟨1, "THINGS", 12, 1380⟩, ⟨2, "LINEDEFS", 1392, 6650⟩]
      "e1m1" MapLumpName.linedefs =
    [(⟨0, "E1M1", 12, 0⟩ : DirEntry), ⟨1, "THINGS", 12, 1380⟩,
      ⟨2, "LINEDEFS", 1392, 6650⟩].get? (0 + MapLumpName.linedefs.ordinal) :=
  (c7_map_lump_lookup
    [⟨0, "E1M1", 12, 0⟩, ⟨1, "THINGS", 12, 1380⟩, ⟨2, "LINEDEFS", 1392, 6650⟩]
    "e1m1" MapLumpName.linedefs (by decide)).1 0 (by decide)

/-- Every BSP node has positive height. -/
theorem bspNode_depth_pos (n : BspNode) : 1 ≤ n.depth := by
  cases n
  rw [BspNode.depth]
  omega

/-- The descent loop of `get_sector_from_vertex` reaches a subsector within
`fuel` iterations as soon as the fuel covers the node's height. -/
theorem bsp_descent_aux (vertex : Vertex) :
    ∀ (fuel : Nat) (n : BspNode), n.depth ≤ fuel →
      ∃ s, getSectorFromVertexLoop vertex fuel n = some s := by
  intro fuel
  induction fuel with
  | zero =>
    intro n hn
    exact absurd hn (by have := bspNode_depth_pos n; omega)
  | succ f ih =>
    intro n hn
    obtain ⟨x, y, dx, dy, rbb, lbb, rc, lc⟩ := n
    rw [BspNode.depth] at hn
    rw [getSectorFromVertexLoop]
    cases hil : vertex.isLeftOfLine ⟨⟨x, y⟩, (Vertex.add ⟨x, y⟩ ⟨dx, dy⟩)⟩
    · simp only [Bool.false_eq_true, if_false]
      cases rc with
      | node m =>
        exact ih m (by have : BspChild.depth (.node m) = m.depth := rfl; omega)
      | subSector s => exact ⟨s, rfl⟩
    · simp only [if_true]
      cases lc with
      | node m =>
        exact ih m (by have : BspChild.depth (.node m) = m.depth := rfl; omega)
      | subSector s => exact ⟨s, rfl⟩

/-- C8: for every node list built by `load_nodes` (so in particular for the
root, the last node) and every vertex, the descent loop of
`get_sector_from_vertex` terminates and reaches a subsector, and the full
function returns that subsector's scan result. -/
theorem c8_bsp_descent_terminates (recs : List NodeRec)
    (subsectors : List SubSector) (nodes : List BspNode)
    (hload : loadNodes recs subsectors = some nodes)
    (root : BspNode) (hroot : root ∈ nodes) (vertex : Vertex) :
    ∃ fuel s, getSectorFromVertexLoop vertex fuel root = some s ∧
      getSectorFromVertex fuel vertex root = some (subSectorSector s) := by
  obtain ⟨s, hs⟩ := bsp_descent_aux vertex root.depth root le_rfl
  refine ⟨root.depth, s, hs, ?_⟩
  rw [getSectorFromVertex, hs]
  rfl

/-- C8, witness: a one-node tree loaded from a single WAD record whose two
child indices have the subsector bit set. -/
theorem c8_bsp_descent_terminates_witness :
    ∃ fuel s,
      getSectorFromVertexLoop ⟨5, 5⟩ fuel
        (BspNode.mk 0 0 1 1 ⟨0, 0, 0, 0⟩ ⟨0, 0, 0, 0⟩
          (BspChild.subSector ⟨[]⟩) (BspChild.subSector ⟨[]⟩)) = some s ∧
      getSectorFromVertex fuel ⟨5, 5⟩
        (BspNode.mk 0 0 1 1 ⟨0, 0, 0, 0⟩ ⟨0, 0, 0, 0⟩
          (BspChild.subSector ⟨[]⟩) (BspChild.subSector ⟨[]⟩)) =
        some (subSectorSector s) :=
  c8_bsp_descent_terminates
    [⟨0, 0, 1, 1, ⟨0, 0, 0, 0⟩, ⟨0, 0, 0, 0⟩, -32768, -32768⟩] [⟨[]⟩]
    [BspNode.mk 0 0 1 1 ⟨0, 0, 0, 0⟩ ⟨0, 0, 0, 0⟩
      (BspChild.subSector ⟨[]⟩) (BspChild.subSector ⟨[]⟩)]
    (by rfl)
    (BspNode.mk 0 0 1 1 ⟨0, 0, 0, 0⟩ ⟨0, 0, 0, 0⟩
      (BspChild.subSector ⟨[]⟩) (BspChild.subSector ⟨[]⟩))
    (List.mem_singleton.mpr rfl) ⟨5, 5⟩

/-- The inner mirror loop, characterised pointwise: after the swaps for
`x, x+1, …, x+m-1` the cells in the swapped ranges hold the opposite cell
of the original row and all other cells are untouched. -/
theorem mirrorRowAux_spec (w : Nat) :
    ∀ (m x : Nat) (row : List (Option Nat)), row.length = w → x + m ≤ w / 2 →
      ∃ r, mirrorRowAux w row x m = some r ∧ r.length = w ∧
        ∀ k, k < w →
          r[k]? = if (x ≤ k ∧ k < x + m) ∨ (w - (x + m) ≤ k ∧ k < w - x)
            then row[w - 1 - k]? else row[k]? := by
  intro m
  induction m with
  | zero =>
    intro x row hlen hx
    refine ⟨row, rfl, hlen, ?_⟩
    intro k hk
    rw [if_neg]
    omega
  | succ m ih =>
    intro x row hlen hx
    have hw2 : 2 * (x + m + 1) ≤ w := by
      have := Nat.div_le_self w 2
      omega
    have hxw : x < row.length := by omega
    have hjw : w - 1 - x < row.length := by omega
    have hxj : x ≠ w - 1 - x := by omega
    have hswap : rowSwap row x (w - 1 - x) =
        some ((row.set x (row.get ⟨w - 1 - x, hjw⟩)).set (w - 1 - x)
          (row.get ⟨x, hxw⟩)) := by
      rw [rowSwap, List.get?_eq_getElem?, List.get?_eq_getElem?,
        List.getElem?_eq_getElem hxw, List.getElem?_eq_getElem hjw]
      rfl
    rw [mirrorRowAux, hswap]
    have hlen1 : ((row.set x (row.get ⟨w - 1 - x, hjw⟩)).set (w - 1 - x)
        (row.get ⟨x, hxw⟩)).length = w := by
      simp [hlen]
    obtain ⟨r, hr, hrlen, hrk⟩ := ih (x + 1) _ hlen1 (by omega)
    refine ⟨r, by exact hr, hrlen, ?_⟩
    have hr1 : ∀ k, k < w →
        ((row.set x (row.get ⟨w - 1 - x, hjw⟩)).set (w - 1 - x)
          (row.get ⟨x, hxw⟩))[k]? =
        if k = w - 1 - x then row[x]?
        else if k = x then row[w - 1 - x]? else row[k]? := by
      intro k hk
      by_cases h1 : k = w - 1 - x
      · subst h1
        rw [if_pos rfl, List.getElem?_set_eq (by rw [List.length_set, hlen]; omega),
          List.getElem?_eq_getElem hxw]
        rfl
      · rw [List.getElem?_set_ne (fun h => h1 h.symm), if_neg h1]
        by_cases h2 : k = x
        · subst h2
          rw [if_pos rfl, List.getElem?_set_eq hxw, List.getElem?_eq_getElem hjw]
          rfl
        · rw [List.getElem?_set_ne (fun h => h2 h.symm), if_neg h2]
    intro k hk
    rw [hrk k hk]
    by_cases hc : (x + 1 ≤ k ∧ k < x + 1 + m) ∨ (w - (x + 1 + m) ≤ k ∧ k < w - (x + 1))
    · rw [if_pos hc, hr1 (w - 1 - k) (by omega), if_neg (by omega),
        if_neg (by omega), if_pos (by omega)]
    · rw [if_neg hc, hr1 k hk]
      by_cases h1 : k = w - 1 - x
      · rw [if_pos h1, if_pos (by omega)]
        have hwk : w - 1 - k = x := by omega
        rw [hwk]
      · rw [if_neg h1]
        by_cases h2 : k = x
        · rw [if_pos h2, if_pos (by omega), h2]
        · rw [if_neg h2, if_neg (by omega)]

/-- Mirroring one full row of its stated width reverses it pointwise. -/
theorem mirrorRow_spec (row : List (Option Nat)) (w : Nat) (hlen : row.length = w) :
    ∃ r, mirrorRow row w = some r ∧ r.length = w ∧
      ∀ k, k < w → r[k]? = row[w - 1 - k]? := by
  obtain ⟨r, hr, hrlen, hrk⟩ := mirrorRowAux_spec w (w / 2) 0 row hlen (by omega)
  refine ⟨r, hr, hrlen, ?_⟩
  intro k hk
  rw [hrk k hk]
  by_cases hc : (0 ≤ k ∧ k < 0 + w / 2) ∨ (w - (0 + w / 2) ≤ k ∧ k < w - 0)
  · rw [if_pos hc]
  · rw [if_neg hc]
    have : w - 1 - k = k := by omega
    rw [this]

/-- The outer mirror loop, characterised row by row. -/
theorem mirrorRowsAux_spec (w : Nat) :
    ∀ (m y : Nat) (pixels : List (List (Option Nat))),
      (∀ i, y ≤ i → i < y + m → ∃ row, pixels[i]? = some row ∧ row.length = w) →
      ∃ ps, mirrorRowsAux w pixels y m = some ps ∧ ps.length = pixels.length ∧
        (∀ i, i < y ∨ y + m ≤ i → ps[i]? = pixels[i]?) ∧
        (∀ i, y ≤ i → i < y + m → ∀ row, pixels[i]? = some row →
          ∃ r, ps[i]? = some r ∧ r.length = w ∧
            ∀ k, k < w → r[k]? = row[w - 1 - k]?) := by
  intro m
  induction m with
  | zero =>
    intro y pixels _
    exact ⟨pixels, rfl, rfl, fun i _ => rfl, fun i h1 h2 => by omega⟩
  | succ m ih =>
    intro y pixels hrows
    obtain ⟨row, hrow, hrowlen⟩ := hrows y (by omega) (by omega)
    obtain ⟨r, hr, hrlen, hrk⟩ := mirrorRow_spec row w hrowlen
    have hylt : y < pixels.length := by
      by_contra hge
      rw [List.getElem?_eq_none (by omega)] at hrow
      exact Option.noConfusion hrow
    have hpre : ∀ i, y + 1 ≤ i → i < y + 1 + m →
        ∃ row2, (pixels.set y r)[i]? = some row2 ∧ row2.length = w := by
      intro i h1 h2
      rw [List.getElem?_set_ne (by omega)]
      exact hrows i (by omega) (by omega)
    obtain ⟨ps, hps, hpslen, hout, hin⟩ := ih (y + 1) (pixels.set y r) hpre
    refine ⟨ps, ?_, by rw [hpslen]; simp, ?_, ?_⟩
    · rw [mirrorRowsAux, List.get?_eq_getElem?, hrow]
      show Option.bind (mirrorRow row w)
        (fun r => mirrorRowsAux w (pixels.set y r) (y + 1) m) = some ps
      rw [hr]
      exact hps
    · intro i hi
      have hiy : i ≠ y := by omega
      rw [hout i (by omega), List.getElem?_set_ne (fun h => hiy h.symm)]
    · intro i h1 h2 row2 hrow2
      by_cases hiy : i = y
      · subst hiy
        rw [hrow] at hrow2
        obtain rfl : row = row2 := Option.some.inj hrow2
        refine ⟨r, ?_, hrlen, hrk⟩
        rw [hout i (by omega), List.getElem?_set_eq (by omega)]
      · refine hin i (by omega) (by omega) row2 ?_
        rw [List.getElem?_set_ne (fun h => hiy h.symm)]
        exact hrow2

/-- C9: mirroring a picture twice returns the original picture — same
width, height, offsets and the same optional palette byte in every cell —
for every picture whose bitmap is well-formed as `Picture::new` builds it
(`height` rows, each of length `width`). -/
theorem c9_mirror_involutive (p : Picture)
    (hh : p.bitmap.pixels.length = i16AsUsize p.bitmap.height)
    (hw : ∀ row ∈ p.bitmap.pixels, row.length = i16AsUsize p.bitmap.width) :
    (pictureMirror p).bind pictureMirror = some p := by
  obtain ⟨name, wadOffset, bitmap, leftOffset, topOffset⟩ := p
  obtain ⟨width, height, pixels⟩ := bitmap
  dsimp only at hh hw ⊢
  set w := i16AsUsize width with hwdef
  set h := i16AsUsize height with hhdef
  have hrows0 : ∀ i, 0 ≤ i → i < 0 + h → ∃ row, pixels[i]? = some row ∧
      row.length = w := by
    intro i _ hi
    have hilt : i < pixels.length := by omega
    exact ⟨pixels[i], List.getElem?_eq_getElem hilt,
      hw pixels[i] (List.getElem_mem hilt)⟩
  obtain ⟨ps1, hps1, hps1len, hout1, hin1⟩ := mirrorRowsAux_spec w h 0 pixels hrows0
  have hrows1 : ∀ i, 0 ≤ i → i < 0 + h → ∃ row, ps1[i]? = some row ∧
      row.length = w := by
    intro i h0 hi
    obtain ⟨row, hrow, _⟩ := hrows0 i h0 hi
    obtain ⟨r, hr, hrlen, _⟩ := hin1 i h0 hi row hrow
    exact ⟨r, hr, hrlen⟩
  obtain ⟨ps2, hps2, hps2len, hout2, hin2⟩ := mirrorRowsAux_spec w h 0 ps1 hrows1
  have hps2eq : ps2 = pixels := by
    apply List.ext_getElem?
    intro i
    by_cases hi : i < h
    · obtain ⟨row, hrow, hrowlen⟩ := hrows0 i (by omega) (by omega)
      obtain ⟨r1, hr1, hr1len, hr1k⟩ := hin1 i (by omega) (by omega) row hrow
      obtain ⟨r2, hr2, hr2len, hr2k⟩ := hin2 i (by omega) (by omega) r1 hr1
      rw [hr2, hrow]
      congr 1
      apply List.ext_getElem?
      intro k
      by_cases hk : k < w
      · rw [hr2k k hk, hr1k (w - 1 - k) (by omega)]
        have : w - 1 - (w - 1 - k) = k := by omega
        rw [this]
      · rw [List.getElem?_eq_none (by omega), List.getElem?_eq_none (by omega)]
    · rw [hout2 i (by omega), hout1 i (by omega)]
  have hbm1 : bitmapMirror ⟨width, height, pixels⟩ = some ⟨width, height, ps1⟩ := by
    rw [bitmapMirror]
    dsimp only
    rw [← hwdef, ← hhdef, hps1]
    rfl
  have hbm2 : bitmapMirror ⟨width, height, ps1⟩ = some ⟨width, height, ps2⟩ := by
    rw [bitmapMirror]
    dsimp only
    rw [← hwdef, ← hhdef, hps2]
    rfl
  have hpm1 : pictureMirror ⟨name, wadOffset, ⟨width, height, pixels⟩, leftOffset,
      topOffset⟩ = some ⟨name, wadOffset, ⟨width, height, ps1⟩, leftOffset,
      topOffset⟩ := by
    rw [pictureMirror]
    dsimp only
    rw [hbm1]
    rfl
  have hpm2 : pictureMirror ⟨name, wadOffset, ⟨width, height, ps1⟩, leftOffset,
      topOffset⟩ = some ⟨name, wadOffset, ⟨width, height, ps2⟩, leftOffset,
      topOffset⟩ := by
    rw [pictureMirror]
    dsimp only
    rw [hbm2]
    rfl
  rw [hpm1, Option.some_bind, hpm2, hps2eq]

/-- C9, witness: a concrete 3×2 picture with transparent and opaque cells. -/
theorem c9_mirror_involutive_witness :
    (pictureMirror ⟨"TROOA1", 1234, ⟨3, 2,
        [[some 1, none, some 2], [none, some 3, some 4]]⟩, 5, 7⟩).bind
      pictureMirror =
    some ⟨"TROOA1", 1234, ⟨3, 2,
      [[some 1, none, some 2], [none, some 3, some 4]]⟩, 5, 7⟩ :=
  c9_mirror_involutive
    ⟨"TROOA1", 1234, ⟨3, 2, [[some 1, none, some 2], [none, some 3, some 4]]⟩, 5, 7⟩
    (by decide) (by decide)

/-- `strobeFlashRun` splits over addition of tick counts. -/
theorem strobeFlashRun_add (s : StrobeFlash × Int) (a b : Nat) :
    strobeFlashRun s (a + b) = strobeFlashRun (strobeFlashRun s a) b := by
  induction a generalizing s with
  | zero => rw [Nat.zero_add]; rfl
  | succ a ih =>
    rw [show a + 1 + b = (a + b) + 1 from by omega, strobeFlashRun, strobeFlashRun]
    exact ih _

/-- The event bit of the `(a + k)`-th call equals the event bit of the
`k`-th call from the state reached after `a` calls. -/
theorem strobeFlashEventAt_shift (s : StrobeFlash × Int) (a k : Nat) (hk : 1 ≤ k) :
    strobeFlashEventAt s (a + k) = strobeFlashEventAt (strobeFlashRun s a) k := by
  rw [strobeFlashEventAt, strobeFlashEventAt,
    show a + k - 1 = a + (k - 1) from by omega, strobeFlashRun_add]

/-- While the countdown has not expired, `mutate` only decrements the
counter and leaves the light untouched. -/
theorem strobe_countdown : ∀ (m : Nat) (f : StrobeFlash) (light : Int),
    (m : Int) < f.count →
    strobeFlashRun (f, light) m = ({ f with count := f.count - m }, light) := by
  intro m
  induction m with
  | zero =>
    intro f light _
    show (f, light) = _
    rw [show f.count - ((0 : Nat) : Int) = f.count from by omega]
  | succ m ih =>
    intro f light h
    rw [strobeFlashRun, strobeFlashMutate]
    dsimp only
    rw [if_pos (show (0 : Int) < f.count - 1 from by omega)]
    rw [ih { f with count := f.count - 1 } light (by push_cast; omega)]
    dsimp only
    rw [show f.count - 1 - (m : Int) = f.count - ((m + 1 : Nat) : Int) from by
      push_cast; ring]

/-- A call made with the light at `max_light` never reports a bright-set
event: either the countdown continues, or the thinker goes dark. -/
theorem strobe_no_event_at_max (f : StrobeFlash) (light : Int) (k : Nat)
    (hk1 : 1 ≤ k) (hkc : (k : Int) ≤ f.count) (hl : light = f.max_light) :
    strobeFlashEventAt (f, light) k = false := by
  rw [strobeFlashEventAt,
    strobe_countdown (k - 1) f light (by omega), strobeFlashMutate]
  dsimp only
  split_ifs with h1 h2
  all_goals first | rfl | exact absurd hl h2

/-- Running a whole countdown from `max_light` lands in the dark state:
light at `min_light`, counter reloaded with `dark_time`. -/
theorem strobe_dark_phase (f : StrobeFlash) (light : Int) (h1 : 1 ≤ f.count)
    (hl : light = f.max_light) :
    strobeFlashRun (f, light) f.count.toNat =
      ({ f with count := f.dark_time }, f.min_light) := by
  rw [show f.count.toNat = (f.count.toNat - 1) + 1 from by omega,
    strobeFlashRun_add, strobe_countdown (f.count.toNat - 1) f light (by omega)]
  rw [show f.count - ((f.count.toNat - 1 : Nat) : Int) = 1 from by omega]
  rw [strobeFlashRun, strobeFlashMutate]
  dsimp only
  rw [if_neg (by omega), if_pos hl]
  rfl

/-- Running a whole countdown from a light other than `max_light` lands in
the bright state, and the bright-set event fires exactly on the expiry
call. -/
theorem strobe_bright_phase (f : StrobeFlash) (light : Int) (h1 : 1 ≤ f.count)
    (hl : light ≠ f.max_light) :
    strobeFlashRun (f, light) f.count.toNat =
      ({ f with count := f.bright_time }, f.max_light) ∧
    ∀ k : Nat, 1 ≤ k → (k : Int) ≤ f.count →
      (strobeFlashEventAt (f, light) k = true ↔ (k : Int) = f.count) := by
  constructor
  · rw [show f.count.toNat = (f.count.toNat - 1) + 1 from by omega,
      strobeFlashRun_add, strobe_countdown (f.count.toNat - 1) f light (by omega)]
    rw [show f.count - ((f.count.toNat - 1 : Nat) : Int) = 1 from by omega]
    rw [strobeFlashRun, strobeFlashMutate]
    dsimp only
    rw [if_neg (by omega), if_neg hl]
    rfl
  · intro k hk1 hkc
    rw [strobeFlashEventAt,
      strobe_countdown (k - 1) f light (by omega), strobeFlashMutate]
    dsimp only
    by_cases hkeq : (k : Int) = f.count
    · rw [if_neg (by omega), if_neg hl]
      simp [hkeq]
    · rw [if_pos (by omega)]
      simp [hkeq]

/-- From the state just after a bright-set (counter 5, light at maximum,
with `dark_time = 15`, `bright_time = 5`), twenty calls return to the same
state and fire a bright-set event exactly on the twentieth. -/
theorem strobe_cycle (f : StrobeFlash) (hD : f.dark_time = 15)
    (hB : f.bright_time = 5) (hne : f.min_light ≠ f.max_light) :
    strobeFlashRun ({ f with count := 5 }, f.max_light) 20 =
      ({ f with count := 5 }, f.max_light) ∧
    ∀ k : Nat, 1 ≤ k → k ≤ 20 →
      (strobeFlashEventAt ({ f with count := 5 }, f.max_light) k = true ↔ k = 20) := by
  have hdark : strobeFlashRun ({ f with count := 5 }, f.max_light) 5 =
      ({ f with count := 15 }, f.min_light) := by
    have h := strobe_dark_phase { f with count := 5 } f.max_light (by norm_num) rfl
    rw [show (({ f with count := 5 } : StrobeFlash).count.toNat) = 5 from rfl] at h
    rw [h]
    dsimp only
    rw [hD]
  have hbright := strobe_bright_phase { f with count := 15 } f.min_light
    (by norm_num) (by dsimp only; exact hne)
  have hbrun : strobeFlashRun ({ f with count := 15 }, f.min_light) 15 =
      ({ f with count := 5 }, f.max_light) := by
    have h := hbright.1
    rw [show (({ f with count := 15 } : StrobeFlash).count.toNat) = 15 from rfl] at h
    rw [h]
    dsimp only
    rw [hB]
  constructor
  · rw [show (20 : Nat) = 5 + 15 from rfl, strobeFlashRun_add, hdark, hbrun]
  · intro k hk1 hk20
    by_cases hk5 : k ≤ 5
    · rw [strobe_no_event_at_max { f with count := 5 } f.max_light k hk1
        (by dsimp only; omega) rfl]
      simp
      omega
    · have hk : k = 5 + (k - 5) := by omega
      rw [hk, strobeFlashEventAt_shift _ 5 (k - 5) (by omega), hdark]
      rw [hbright.2 (k - 5) (by omega) (by dsimp only; push_cast; omega)]
      dsimp only
      constructor
      · intro h
        omega
      · intro h
        omega

/-- Bright-set events from the post-bright state occur exactly at the
multiples of 20. -/
theorem strobe_cycle_all (f : StrobeFlash) (hD : f.dark_time = 15)
    (hB : f.bright_time = 5) (hne : f.min_light ≠ f.max_light) :
    ∀ k : Nat, 1 ≤ k →
      (strobeFlashEventAt ({ f with count := 5 }, f.max_light) k = true ↔
        k % 20 = 0) := by
  intro k
  induction k using Nat.strong_induction_on with
  | _ k ih =>
    intro hk1
    by_cases hk20 : k ≤ 20
    · rw [(strobe_cycle f hD hB hne).2 k hk1 hk20]
      omega
    · rw [show k = 20 + (k - 20) from by omega,
        strobeFlashEventAt_shift _ 20 (k - 20) (by omega),
        (strobe_cycle f hD hB hne).1,
        ih (k - 20) (by omega) (by omega)]
      omega

/-- C5: for a `StrobeFlash` built by `StrobeFlash::new` with
`dark_time = FAST_DARK = 15` (so `bright_time = STROBE_BRIGHT = 5`) on a
sector whose computed surrounding minimum differs from its light level, the
calls that set the light to `max_light` are exactly the calls numbered
`count₀ + 15 + 20·j` — one bright-set every 20th tick from the second
cycle onward.  `rngDraw ≥ 1` is the contract of `gen_range(1..9)` for the
initial counter when the strobe is not synchronised. -/
theorem c5_strobeflash_every_20th_tick (linedefs : List Linedef)
    (sector : Sector) (inSync : Bool) (rngDraw : Int) (hrng : 1 ≤ rngDraw)
    (hneq : findMinSurroundingLight linedefs sector.id sector.light_level ≠
      sector.light_level) (k : Nat) (hk : 1 ≤ k) :
    strobeFlashEventAt
        (strobeFlashNew linedefs sector FAST_DARK inSync rngDraw,
          sector.light_level) k = true ↔
      ∃ j : Nat, (k : Int) =
        (strobeFlashNew linedefs sector FAST_DARK inSync rngDraw).count +
          15 + 20 * j := by
  set f0 := strobeFlashNew linedefs sector FAST_DARK inSync rngDraw with hf0
  have hmax : f0.max_light = sector.light_level := rfl
  have hmin : f0.min_light =
      findMinSurroundingLight linedefs sector.id sector.light_level := by
    rw [hf0, strobeFlashNew]
    dsimp only
    rw [if_neg hneq]
  have hne : f0.min_light ≠ f0.max_light := by
    rw [hmin, hmax]
    exact hneq
  have hD : f0.dark_time = FAST_DARK := rfl
  have hB : f0.bright_time = STROBE_BRIGHT := rfl
  have hc1 : 1 ≤ f0.count := by
    rw [hf0, strobeFlashNew]
    dsimp only
    cases inSync
    · simpa using hrng
    · simp
  set c0 := f0.count.toNat with hc0
  have hc0c : (c0 : Int) = f0.count := by omega
  have hdark : strobeFlashRun (f0, sector.light_level) c0 =
      ({ f0 with count := 15 }, f0.min_light) := by
    have h := strobe_dark_phase f0 sector.light_level hc1 hmax.symm
    rw [← hc0] at h
    rw [h, hD]
    rfl
  have hbright := strobe_bright_phase { f0 with count := 15 } f0.min_light
    (by norm_num) (by dsimp only; exact hne)
  have hpb : strobeFlashRun (f0, sector.light_level) (c0 + 15) =
      ({ f0 with count := 5 }, f0.max_light) := by
    rw [strobeFlashRun_add, hdark]
    have h := hbright.1
    rw [show (({ f0 with count := 15 } : StrobeFlash).count.toNat) = 15 from rfl] at h
    rw [h]
    dsimp only
    rw [hB]
    rfl
  by_cases hk1 : k ≤ c0
  · rw [strobe_no_event_at_max f0 sector.light_level k hk (by omega) hmax.symm]
    constructor
    · intro h
      exact absurd h (by simp)
    · rintro ⟨j, hj⟩
      exfalso
      omega
  · by_cases hk2 : k ≤ c0 + 15
    · rw [show k = c0 + (k - c0) from by omega,
        strobeFlashEventAt_shift _ c0 (k - c0) (by omega), hdark,
        hbright.2 (k - c0) (by omega) (by dsimp only; push_cast; omega)]
      dsimp only
      constructor
      · intro h
        exact ⟨0, by push_cast; omega⟩
      · rintro ⟨j, hj⟩
        push_cast at hj ⊢
        omega
    · rw [show k = (c0 + 15) + (k - (c0 + 15)) from by omega,
        strobeFlashEventAt_shift _ (c0 + 15) (k - (c0 + 15)) (by omega), hpb,
        strobe_cycle_all f0 hD hB hne (k - (c0 + 15)) (by omega)]
      constructor
      · intro h
        refine ⟨(k - (c0 + 15)) / 20, ?_⟩
        push_cast
        omega
      · rintro ⟨j, hj⟩
        push_cast at hj
        omega

/-- C5, witness: a synchronised strobe (initial counter 1) on a sector with
light 192 next to a sector with light 64 fires its bright-set on tick
16 = 1 + 15. -/
theorem c5_strobeflash_every_20th_tick_witness :
    strobeFlashEventAt
      (strobeFlashNew
        [{ id := 0, flags := 4, special_type := 0, sector_tag := 0,
           front_sidedef := some ⟨0, 0, 0, "-", "-", "-",
             ⟨0, 0, 128, "F", "C", 192, 2, 0⟩⟩,
           back_sidedef := some ⟨1, 0, 0, "-", "-", "-",
             ⟨1, 0, 128, "F", "C", 64, 0, 0⟩⟩ }]
        ⟨0, 0, 128, "F", "C", 192, 2, 0⟩ FAST_DARK true 1,
        (192 : Int)) 16 = true :=
  (c5_strobeflash_every_20th_tick
    [{ id := 0, flags := 4, special_type := 0, sector_tag := 0,
       front_sidedef := some ⟨0, 0, 0, "-", "-", "-",
         ⟨0, 0, 128, "F", "C", 192, 2, 0⟩⟩,
       back_sidedef := some ⟨1, 0, 0, "-", "-", "-",
         ⟨1, 0, 128, "F", "C", 64, 0, 0⟩⟩ }]
    ⟨0, 0, 128, "F", "C", 192, 2, 0⟩ true 1 (by norm_num) (by decide)
    16 (by norm_num)).mpr ⟨0, by decide⟩

/-- `OcclTightened` is reflexive. -/
theorem occlTightened_refl (s : SegsState) : OcclTightened s s := by
  intro x
  refine ⟨fun h => ⟨h, rfl, rfl⟩, fun h => ⟨fun _ => ⟨le_refl _, le_refl _⟩, fun h2 => ?_⟩⟩
  rw [h] at h2
  exact absurd h2 (by simp)

/-- `OcclTightened` composes across successive seg-processing steps. -/
theorem occlTightened_trans {s t u : SegsState} (h1 : OcclTightened s t)
    (h2 : OcclTightened t u) : OcclTightened s u := by
  intro x
  obtain ⟨a1, b1⟩ := h1 x
  obtain ⟨a2, b2⟩ := h2 x
  constructor
  · intro hs
    obtain ⟨ht, hf, hc⟩ := a1 hs
    obtain ⟨hu, hf2, hc2⟩ := a2 ht
    exact ⟨hu, by rw [hf2, hf], by rw [hc2, hc]⟩
  · intro hs
    obtain ⟨mono1, occl1⟩ := b1 hs
    constructor
    · intro hu
      have ht : t.hor_ocl x = false := by
        cases htx : t.hor_ocl x
        · rfl
        · obtain ⟨hu2, _, _⟩ := a2 htx
          rw [hu2] at hu
          exact absurd hu (by simp)
      obtain ⟨hf1, hc1⟩ := mono1 ht
      obtain ⟨mono2, _⟩ := b2 ht
      obtain ⟨hf2, hc2⟩ := mono2 hu
      exact ⟨le_trans hf2 hf1, le_trans hc1 hc2⟩
    · intro hu
      cases htx : t.hor_ocl x
      · exact (b2 htx).2 hu
      · obtain ⟨_, hf2, hc2⟩ := a2 htx
        obtain ⟨hf1, hc1⟩ := occl1 htx
        exact ⟨by rw [hf2, hf1], by rw [hc2, hc1]⟩

/-- `occlude_vertical_line` keeps the state invariant and only tightens. -/
theorem occl_inv_tight (s : SegsState) (xn : Nat) (hinv : SegsStateInv s) :
    SegsStateInv (occludeVerticalLine s xn) ∧
    OcclTightened s (occludeVerticalLine s xn) := by
  constructor
  · intro y hy
    by_cases hxy : y = xn
    · subst hxy
      simp [occludeVerticalLine]
    · rw [occludeVerticalLine] at hy
      dsimp only at hy
      rw [Function.update_noteq hxy] at hy
      have := hinv y hy
      simp only [occludeVerticalLine]
      rw [Function.update_noteq hxy, Function.update_noteq hxy]
      exact this
  · intro y
    by_cases hxy : y = xn
    · subst hxy
      constructor
      · intro hy
        obtain ⟨hf, hc⟩ := hinv y hy
        refine ⟨by simp [occludeVerticalLine], ?_, ?_⟩
        · simp [occludeVerticalLine, hf]
        · simp [occludeVerticalLine, hc]
      · intro hy
        refine ⟨fun h2 => ?_, fun _ => ?_⟩
        · exact absurd h2 (by simp [occludeVerticalLine])
        · constructor <;> simp [occludeVerticalLine]
    · simp only [occludeVerticalLine]
      rw [Function.update_noteq hxy, Function.update_noteq hxy,
        Function.update_noteq hxy]
      refine ⟨fun h => ⟨h, rfl, rfl⟩,
        fun h => ⟨fun _ => ⟨le_refl _, le_refl _⟩, fun h2 => ?_⟩⟩
      rw [h] at h2
      exact absurd h2 (by simp)

/-- Occluding an already occluded column changes nothing. -/
theorem occl_idem (s : SegsState) (xn : Nat) :
    occludeVerticalLine (occludeVerticalLine s xn) xn = occludeVerticalLine s xn := by
  simp [occludeVerticalLine, Function.update_idem]

/-- Updating both vertical bounds of an unoccluded column toward the
screen centre keeps the invariant and only tightens. -/
theorem updFC_inv_tight (s : SegsState) (xn : Nat)
    (hh : s.hor_ocl xn = false) (v w : Int) (hv : v ≤ s.floor_ver_ocl xn)
    (hw : s.ceiling_ver_ocl xn ≤ w) (hinv : SegsStateInv s) :
    SegsStateInv ⟨s.hor_ocl, Function.update s.floor_ver_ocl xn v,
      Function.update s.ceiling_ver_ocl xn w⟩ ∧
    OcclTightened s ⟨s.hor_ocl, Function.update s.floor_ver_ocl xn v,
      Function.update s.ceiling_ver_ocl xn w⟩ := by
  constructor
  · intro y hy
    by_cases hxy : y = xn
    · subst hxy
      exact absurd hy (by simp [hh])
    · dsimp only at hy ⊢
      rw [Function.update_noteq hxy, Function.update_noteq hxy]
      exact hinv y hy
  · intro y
    by_cases hxy : y = xn
    · subst hxy
      refine ⟨fun h => absurd h (by simp [hh]), fun _ => ⟨fun _ => ?_, fun h2 => ?_⟩⟩
      · dsimp only
        rw [Function.update_same, Function.update_same]
        exact ⟨hv, hw⟩
      · exact absurd h2 (by simp [hh])
    · dsimp only
      rw [Function.update_noteq hxy, Function.update_noteq hxy]
      refine ⟨fun h => ⟨h, rfl, rfl⟩,
        fun h => ⟨fun _ => ⟨le_refl _, le_refl _⟩, fun h2 => ?_⟩⟩
      rw [h] at h2
      exact absurd h2 (by simp)

/-- Floor-only version of `updFC_inv_tight`. -/
theorem updF_inv_tight (s : SegsState) (xn : Nat)
    (hh : s.hor_ocl xn = false) (v : Int) (hv : v ≤ s.floor_ver_ocl xn)
    (hinv : SegsStateInv s) :
    SegsStateInv ⟨s.hor_ocl, Function.update s.floor_ver_ocl xn v,
      s.ceiling_ver_ocl⟩ ∧
    OcclTightened s ⟨s.hor_ocl, Function.update s.floor_ver_ocl xn v,
      s.ceiling_ver_ocl⟩ := by
  have h := updFC_inv_tight s xn hh v (s.ceiling_ver_ocl xn) hv (le_refl _) hinv
  rw [Function.update_eq_self] at h
  exact h

/-- Ceiling-only version of `updFC_inv_tight`. -/
theorem updC_inv_tight (s : SegsState) (xn : Nat)
    (hh : s.hor_ocl xn = false) (w : Int) (hw : s.ceiling_ver_ocl xn ≤ w)
    (hinv : SegsStateInv s) :
    SegsStateInv ⟨s.hor_ocl, s.floor_ver_ocl,
      Function.update s.ceiling_ver_ocl xn w⟩ ∧
    OcclTightened s ⟨s.hor_ocl, s.floor_ver_ocl,
      Function.update s.ceiling_ver_ocl xn w⟩ := by
  have h := updFC_inv_tight s xn hh (s.floor_ver_ocl xn) w (le_refl _) hw hinv
  rw [Function.update_eq_self] at h
  exact h

set_option maxHeartbeats 2000000 in
/-- The body of the not-yet-occluded branch of the per-column loop keeps
the occlusion invariant and only tightens the occlusion state, whatever
the flag combination and screen heights. -/
theorem processSidedefColumnInner_tight (p : SidedefFlags) (bottomY topY : Int)
    (xn : Nat) (s : SegsState) (hh : s.hor_ocl xn = false)
    (hinv : SegsStateInv s) :
    SegsStateInv (processSidedefColumnInner p bottomY topY xn s) ∧
    OcclTightened s (processSidedefColumnInner p bottomY topY xn s) := by
  rw [processSidedefColumnInner]
  dsimp only
  split_ifs <;>
    (try dsimp only) <;>
    (try simp only [Function.update_idem]) <;>
    first
      | exact ⟨hinv, occlTightened_refl s⟩
      | exact occl_inv_tight s xn hinv
      | (rw [occl_idem]; exact occl_inv_tight s xn hinv)
      | (refine updFC_inv_tight s xn hh _ _ ?_ ?_ hinv <;>
          (simp only [Bool.and_eq_true, Bool.or_eq_true, Bool.not_eq_true',
             decide_eq_true_eq] at * <;> omega))
      | (refine updF_inv_tight s xn hh _ ?_ hinv <;>
          (simp only [Bool.and_eq_true, Bool.or_eq_true, Bool.not_eq_true',
             decide_eq_true_eq] at * <;> omega))
      | (refine updC_inv_tight s xn hh _ ?_ hinv <;>
          (simp only [Bool.and_eq_true, Bool.or_eq_true, Bool.not_eq_true',
             decide_eq_true_eq] at * <;> omega))
      | (exfalso; simp_all only [Bool.and_eq_true, Bool.or_eq_true,
           Bool.not_eq_true', decide_eq_true_eq, decide_True, decide_False,
           Bool.true_eq_false, Bool.false_eq_true, not_true, not_false_eq_true,
           true_and, and_true, false_and, and_false, true_or, or_true,
           false_or, or_false, not_le, not_lt])

/-- One column iteration of `process_sidedef` keeps the occlusion
invariant and only tightens the occlusion state, whatever the flag
combination and screen lines. -/
theorem processSidedefColumn_tight (p : SidedefFlags) (bottom top : SdlLine)
    (bottomDelta topDelta : Rat) (s : SegsState) (x : Int)
    (hinv : SegsStateInv s) :
    SegsStateInv (processSidedefColumn p bottom top bottomDelta topDelta s x) ∧
    OcclTightened s (processSidedefColumn p bottom top bottomDelta topDelta s x) := by
  rw [processSidedefColumn]
  by_cases hhor : s.hor_ocl x.toNat = true
  · simp only [hhor, Bool.not_true, Bool.false_eq_true, if_false]
    split_ifs
    · exact occl_inv_tight s x.toNat hinv
    · exact ⟨hinv, occlTightened_refl s⟩
  · rw [Bool.not_eq_true] at hhor
    simp only [hhor, Bool.not_false, if_true]
    have h1 := processSidedefColumnInner_tight p
      (f32AsI16 ((bottom.start.y : Rat) +
        ((x : Rat) - (bottom.start.x : Rat)) * bottomDelta))
      (f32AsI16 ((top.start.y : Rat) +
        ((x : Rat) - (top.start.x : Rat)) * topDelta))
      x.toNat s hhor hinv
    split_ifs
    · exact ⟨(occl_inv_tight _ x.toNat h1.1).1,
        occlTightened_trans h1.2 (occl_inv_tight _ x.toNat h1.1).2⟩
    · exact h1

/-- The per-column loop of `process_sidedef` keeps the occlusion invariant
and only tightens the occlusion state. -/
theorem processSidedefLoop_tight (p : SidedefFlags) (bottom top : SdlLine)
    (bottomDelta topDelta : Rat) (xs : List Int) (s : SegsState)
    (hinv : SegsStateInv s) :
    SegsStateInv (xs.foldl (processSidedefColumn p bottom top bottomDelta topDelta) s) ∧
    OcclTightened s (xs.foldl (processSidedefColumn p bottom top bottomDelta topDelta) s) := by
  induction xs generalizing s with
  | nil => exact ⟨hinv, occlTightened_refl s⟩
  | cons x xs ih =>
    have h1 := processSidedefColumn_tight p bottom top bottomDelta topDelta s x hinv
    have h2 := ih _ h1.1
    exact ⟨h2.1, occlTightened_trans h1.2 h2.2⟩

/-- `none` (a panic) is vacuously a tightening step. -/
theorem tightensFrom_none (s : SegsState) : TightensFrom s none :=
  fun _ h => Option.noConfusion h

/-- Returning the state unchanged is a tightening step. -/
theorem tightensFrom_some (s : SegsState) (hinv : SegsStateInv s) :
    TightensFrom s (some s) := by
  intro s' h
  cases h
  exact ⟨hinv, occlTightened_refl s⟩

/-- Binding a non-state value (a flat lookup) preserves tightening. -/
theorem tightensFrom_bindVal {α : Type} (s : SegsState) (m : Option α)
    (f : α → Option SegsState) (hf : ∀ a, TightensFrom s (f a)) :
    TightensFrom s (m.bind f) := by
  cases m with
  | none => exact fun _ h => Option.noConfusion h
  | some a => exact fun s' h => hf a s' h

/-- Tightening steps compose across an `Option.bind`. -/
theorem tightensFrom_bind (s : SegsState) (m : Option SegsState)
    (f : SegsState → Option SegsState) (hm : TightensFrom s m)
    (hf : ∀ t, SegsStateInv t → OcclTightened s t → TightensFrom t (f t)) :
    TightensFrom s (m.bind f) := by
  cases m with
  | none => exact fun _ h => Option.noConfusion h
  | some t =>
    intro s' h
    obtain ⟨hti, htt⟩ := hm t rfl
    obtain ⟨hsi, hst⟩ := hf t hti htt s' h
    exact ⟨hsi, occlTightened_trans htt hst⟩

/-- `process_sidedef` is a tightening step, whatever its parameters. -/
theorem processSidedef_tightensFrom (texKnown : String → Bool) (s : SegsState)
    (clippedLine : Line) (bottomHeight topHeight : Rat) (textureName : String)
    (p : SidedefFlags) (hinv : SegsStateInv s) :
    TightensFrom s (processSidedef texKnown s clippedLine bottomHeight
      topHeight textureName p) := by
  intro s' h
  rw [processSidedef] at h
  split_ifs at h <;>
    (try dsimp only at h) <;>
    first
      | exact Option.noConfusion h
      | (cases h; exact ⟨hinv, occlTightened_refl s⟩)
      | (cases h; exact processSidedefLoop_tight _ _ _ _ _ _ _ hinv)

set_option maxHeartbeats 1600000 in
/-- The body of `process_seg` is a tightening step: every branch either
leaves the state unchanged, panics, or chains `process_sidedef` calls. -/
theorem processSegCore_tightensFrom (texKnown flatKnown : String → Bool)
    (player : Player) (timestamp : Rat) (s : SegsState) (lflags : Int)
    (sv ev : Vertex) (ofs obs : Option Sidedef) (hinv : SegsStateInv s) :
    TightensFrom s (processSegCore texKnown flatKnown player timestamp s
      lflags sv ev ofs obs) := by
  rw [processSegCore.eq_def]
  cases ofs with
  | none => exact tightensFrom_some s hinv
  | some fsd =>
    dsimp only
    cases obs with
    | none =>
      dsimp only
      cases hcv : clipToViewport ⟨(sv.sub player.position).rotate
          player.angleCos (-player.angleSin),
        (ev.sub player.position).rotate player.angleCos (-player.angleSin)⟩ with
      | none => exact tightensFrom_some s hinv
      | some clippedLine =>
        dsimp only
        by_cases hsx : clippedLine.start.x < -(1 / 100 : Rat)
        · rw [if_pos hsx]
          exact tightensFrom_none s
        · rw [if_neg hsx]
          by_cases hfe : (makeSidedefNonVerticalLine clippedLine
                ((fsd.sector.floor_height : Rat) -
                  (player.floor_height + PLAYER_EYE_HEIGHT))).endp.x <
              (makeSidedefNonVerticalLine clippedLine
                ((fsd.sector.floor_height : Rat) -
                  (player.floor_height + PLAYER_EYE_HEIGHT))).start.x
          · rw [if_pos hfe]
            exact tightensFrom_some s hinv
          · rw [if_neg hfe]
            refine tightensFrom_bindVal s _ _ (fun ff => ?_)
            refine tightensFrom_bindVal s _ _ (fun cf => ?_)
            by_cases hts : (!flagSet lflags Flags.TWOSIDED) = true
            · rw [if_pos hts]
              exact processSidedef_tightensFrom _ _ _ _ _ _ _ hinv
            · rw [if_neg hts]
              refine tightensFrom_bind s _ _
                (processSidedef_tightensFrom _ _ _ _ _ _ _ hinv)
                (fun t1 h1i h1t => ?_)
              refine tightensFrom_bind t1 _ _
                (processSidedef_tightensFrom _ _ _ _ _ _ _ h1i)
                (fun t2 h2i h2t => ?_)
              refine tightensFrom_bind t2 _ _
                (tightensFrom_some t2 h2i) (fun t3 h3i h3t => ?_)
              refine tightensFrom_bind t3 _ _
                (tightensFrom_some t3 h3i) (fun t4 h4i h4t => ?_)
              exact tightensFrom_some t4 h4i
    | some bsd =>
      dsimp only
      cases hcv : clipToViewport ⟨(sv.sub player.position).rotate
          player.angleCos (-player.angleSin),
        (ev.sub player.position).rotate player.angleCos (-player.angleSin)⟩ with
      | none => exact tightensFrom_some s hinv
      | some clippedLine =>
        dsimp only
        by_cases hsx : clippedLine.start.x < -(1 / 100 : Rat)
        · rw [if_pos hsx]
          exact tightensFrom_none s
        · rw [if_neg hsx]
          by_cases hfe : (makeSidedefNonVerticalLine clippedLine
                ((fsd.sector.floor_height : Rat) -
                  (player.floor_height + PLAYER_EYE_HEIGHT))).endp.x <
              (makeSidedefNonVerticalLine clippedLine
                ((fsd.sector.floor_height : Rat) -
                  (player.floor_height + PLAYER_EYE_HEIGHT))).start.x
          · rw [if_pos hfe]
            exact tightensFrom_some s hinv
          · rw [if_neg hfe]
            refine tightensFrom_bindVal s _ _ (fun ff => ?_)
            refine tightensFrom_bindVal s _ _ (fun cf => ?_)
            by_cases hts : (!flagSet lflags Flags.TWOSIDED) = true
            · rw [if_pos hts]
              exact processSidedef_tightensFrom _ _ _ _ _ _ _ hinv
            · rw [if_neg hts]
              refine tightensFrom_bind s _ _
                (processSidedef_tightensFrom _ _ _ _ _ _ _ hinv)
                (fun t1 h1i h1t => ?_)
              refine tightensFrom_bind t1 _ _
                (processSidedef_tightensFrom _ _ _ _ _ _ _ h1i)
                (fun t2 h2i h2t => ?_)
              refine tightensFrom_bind t2 _ _ ?_ (fun t3 h3i h3t => ?_)
              · by_cases hpb : fsd.sector.floor_height < bsd.sector.floor_height
                · simp only [if_pos hpb]
                  exact processSidedef_tightensFrom _ _ _ _ _ _ _ h2i
                · simp only [if_neg hpb]
                  exact tightensFrom_some t2 h2i
              · refine tightensFrom_bind t3 _ _ ?_ (fun t4 h4i h4t => ?_)
                · by_cases hsky : (strContains fsd.sector.ceiling_texture "SKY" &&
                      strContains bsd.sector.ceiling_texture "SKY") = true
                  · simp only [hsky, eq_self_iff_true, if_true]
                    exact tightensFrom_some t3 h3i
                  · simp only [hsky, if_false]
                    by_cases hpt : bsd.sector.ceiling_height < fsd.sector.ceiling_height
                    · simp only [if_pos hpt]
                      exact processSidedef_tightensFrom _ _ _ _ _ _ _ h3i
                    · simp only [if_neg hpt]
                      exact tightensFrom_some t3 h3i
                · exact tightensFrom_some t4 h4i

/-- `process_seg` is a tightening step. -/
theorem processSeg_tightensFrom (texKnown flatKnown : String → Bool)
    (player : Player) (timestamp : Rat) (s : SegsState) (seg : Seg)
    (hinv : SegsStateInv s) :
    TightensFrom s (processSeg texKnown flatKnown player timestamp s seg) := by
  rw [processSeg]
  exact processSegCore_tightensFrom _ _ _ _ _ _ _ _ _ _ hinv

/-- C1 (amended): the initial occlusion state of `Segs::new` satisfies the
occlusion invariant, and every successful `Segs::process_seg` call starting
from a state satisfying the invariant yields a state that satisfies the
invariant and only tightens the occlusion: on a column that stays
unoccluded, `floor_ver_ocl` never increases and `ceiling_ver_ocl` never
decreases; a column occluded by the step gets both bounds set to
`SCREEN_HEIGHT / 2` (which can increase `floor_ver_ocl` past a value
previously below `SCREEN_HEIGHT / 2`); an already occluded column keeps its
values.  The unconditional monotonicity claimed by the spec is refuted by
`c1_occlusion_monotonicity_counterexample`. -/
theorem c1_occlusion_tightening (texKnown flatKnown : String → Bool)
    (player : Player) (timestamp : Rat) (s : SegsState) (seg : Seg)
    (s' : SegsState) (hinv : SegsStateInv s)
    (h : processSeg texKnown flatKnown player timestamp s seg = some s') :
    SegsStateInv segsNew ∧ SegsStateInv s' ∧ OcclTightened s s' := by
  refine ⟨fun x hx => absurd hx (by simp [segsNew]), ?_⟩
  exact processSeg_tightensFrom texKnown flatKnown player timestamp s seg hinv s' h

/-- C1, witness: the tightening theorem applied to a seg without a front
sidedef, which `process_seg` leaves unprocessed. -/
theorem c1_occlusion_tightening_witness :
    SegsStateInv segsNew ∧ SegsStateInv segsNew ∧ OcclTightened segsNew segsNew :=
  c1_occlusion_tightening (fun _ => true) (fun _ => true) ⟨⟨0, 0⟩, 0, 1, 0⟩ 0
    segsNew ⟨0, ⟨0, 0⟩, ⟨0, 0⟩, 0, ⟨0, 0, 0, 0, none, none⟩, false, 0⟩ segsNew
    (fun x hx => absurd hx (by simp [segsNew])) (by rfl)

/-- `Rat.floor` agrees with the `Int.floor` notation (evaluation helper). -/
theorem rat_floor_eq_intFloor (q : Rat) : q.floor = ⌊q⌋ := rfl

set_option maxHeartbeats 4000000 in
/-- C1, counterexample to the claim as stated: processing a two-sided seg
(player at the origin looking along the x axis, portal from floor 101 to
ceiling 241, at distance 128) runs the occlusion-only pass and lowers
`floor_ver_ocl` on column 510 from 768 to 96; processing a nearer one-sided
full-height wall seg (floor 1 to ceiling 241 at distance 256) then occludes
the column, setting `floor_ver_ocl[510]` to `SCREEN_HEIGHT / 2 = 384`.
The stored value increases from 96 to 384 across consecutive updates, so
`floor_ver_ocl` is not non-increasing. -/
theorem c1_occlusion_monotonicity_counterexample :
    ((processSeg (fun _ => true) (fun _ => true) ⟨⟨0, 0⟩, 0, 1, 0⟩ 0 segsNew
        ⟨0, ⟨128, 1/2⟩, ⟨128, 1/4⟩, 0, ⟨0, 4, 0, 0,
          some ⟨0, 0, 0, "-", "-", "-", ⟨0, 101, 241, "F", "C", 160, 0, 0⟩⟩,
          some ⟨1, 0, 0, "-", "-", "-", ⟨1, 101, 241, "F", "C", 160, 0, 0⟩⟩⟩,
          false, 0⟩).bind (fun sA =>
      (processSeg (fun _ => true) (fun _ => true) ⟨⟨0, 0⟩, 0, 1, 0⟩ 0 sA
        ⟨1, ⟨256, 1⟩, ⟨256, 1/2⟩, 0, ⟨1, 0, 0, 0,
          some ⟨2, 0, 0, "-", "-", "W", ⟨2, 1, 241, "F", "C", 160, 0, 0⟩⟩,
          none⟩, false, 0⟩).map (fun sB =>
        (sA.hor_ocl 510, sA.floor_ver_ocl 510, sB.floor_ver_ocl 510)))) =
      some (false, 96, 384) := by
  have hclipA : clipToViewport ⟨⟨128, 1/2⟩, ⟨128, 1/4⟩⟩ =
      some ⟨⟨128, 1/2⟩, ⟨128, 1/4⟩⟩ := by
    norm_num [clipToViewport, Vertex.isLeftOfLine, Vertex.crossProduct, Vertex.sub]
  have hclipB : clipToViewport ⟨⟨256, 1⟩, ⟨256, 1/2⟩⟩ =
      some ⟨⟨256, 1⟩, ⟨256, 1/2⟩⟩ := by
    norm_num [clipToViewport, Vertex.isLeftOfLine, Vertex.crossProduct, Vertex.sub]
  have hmkA60 : makeSidedefNonVerticalLine ⟨⟨128, 1/2⟩, ⟨128, 1/4⟩⟩ 60 =
      ⟨⟨510, 96⟩, ⟨511, 96⟩⟩ := by
    norm_num [makeSidedefNonVerticalLine, perspectiveTransform, f32AsI32, ratTrunc,
      rat_floor_eq_intFloor, GAME_CAMERA_FOCUS_X, GAME_SCREEN_WIDTH,
      ASPECT_RATIO_CORRECTION, CAMERA_FOCUS_X, CAMERA_FOCUS_Y, SCREEN_WIDTH,
      SCREEN_HEIGHT]
  have hmkA200 : makeSidedefNonVerticalLine ⟨⟨128, 1/2⟩, ⟨128, 1/4⟩⟩ 200 =
      ⟨⟨510, -576⟩, ⟨511, -576⟩⟩ := by
    norm_num [makeSidedefNonVerticalLine, perspectiveTransform, f32AsI32, ratTrunc,
      rat_floor_eq_intFloor, GAME_CAMERA_FOCUS_X, GAME_SCREEN_WIDTH,
      ASPECT_RATIO_CORRECTION, CAMERA_FOCUS_X, CAMERA_FOCUS_Y, SCREEN_WIDTH,
      SCREEN_HEIGHT]
  have hmkB40 : makeSidedefNonVerticalLine ⟨⟨256, 1⟩, ⟨256, 1/2⟩⟩ (-40) =
      ⟨⟨510, 480⟩, ⟨511, 480⟩⟩ := by
    norm_num [makeSidedefNonVerticalLine, perspectiveTransform, f32AsI32, ratTrunc,
      rat_floor_eq_intFloor, GAME_CAMERA_FOCUS_X, GAME_SCREEN_WIDTH,
      ASPECT_RATIO_CORRECTION, CAMERA_FOCUS_X, CAMERA_FOCUS_Y, SCREEN_WIDTH,
      SCREEN_HEIGHT]
  have hmkB200 : makeSidedefNonVerticalLine ⟨⟨256, 1⟩, ⟨256, 1/2⟩⟩ 200 =
      ⟨⟨510, -96⟩, ⟨511, -96⟩⟩ := by
    norm_num [makeSidedefNonVerticalLine, perspectiveTransform, f32AsI32, ratTrunc,
      rat_floor_eq_intFloor, GAME_CAMERA_FOCUS_X, GAME_SCREEN_WIDTH,
      ASPECT_RATIO_CORRECTION, CAMERA_FOCUS_X, CAMERA_FOCUS_Y, SCREEN_WIDTH,
      SCREEN_HEIGHT]
  have hflat : flatsGetAnimated (fun _ => true) "F" 0 = some "F" := by decide
  have hflatC : flatsGetAnimated (fun _ => true) "C" 0 = some "C" := by decide
  have hsky : strContains "C" "SKY" = false := by decide
  have hrange : intRange 510 512 = [510, 511] := by decide
  have h510 : (510 : Int).toNat = 510 := rfl
  have h511 : (511 : Int).toNat = 511 := rfl
  simp only [processSeg]
  norm_num [processSegCore, Vertex.sub, Vertex.rotate, hclipA, hclipB,
    PLAYER_EYE_HEIGHT, flagSet, Flags.TWOSIDED, hflat, hflatC, hsky,
    processSidedef, hmkA60, hmkA200, hmkB40, hmkB200, i32AsI16, hrange,
    processSidedefColumn, processSidedefColumnInner, occludeVerticalLine,
    f32AsI16, ratTrunc, rat_floor_eq_intFloor, SidedefFlags.isFullHeightWall,
    segsNew, SCREEN_WIDTH, SCREEN_HEIGHT, Function.update, h510, h511]

/-- C6, witness: the amended clock theorem applied to a fresh clock at
timestamp 0 with a 1/7-second interval, which fires 5 ticks. -/
theorem c6_game_clock_ticks_witness :
    ((gameEvolveTicks clockNew 0 (1 / 7)).2.1 : Int) =
      (((0 : Rat) + 1 / 7) * (CLOCK_HZ : Rat)).floor -
        ((0 : Rat) * (CLOCK_HZ : Rat)).floor :=
  c6_game_clock_ticks clockNew 0 0 (1 / 7) (by norm_num) (by norm_num) rfl
    (by rw [rat_floor_eq_intFloor]; norm_num)
    (by norm_num [CLOCK_HZ])

end DoomRs
